import Mathlib

/-!
# rlm_otp: the otpd client of `otp_pw_valid.c`

A shallow embedding of `src/modules/rlm_otp/otp_pw_valid.c`.

* The connection pool (`otp_fd_head` and the `next` chain) is a list of nodes, head first.
  The pool only grows, and only at the head, so a node is identified by the number of nodes
  behind it in the chain; that number plays the part of the `otp_fd_t *` pointer.
* A mutex is a boolean (`true` = held).  `otp_pthread_mutex_trylock` on a free mutex takes it
  and returns 0; on a held mutex it returns non-zero and changes nothing.
* The system calls `socket`, `connect`, `write` and `read` take their results from scripts
  stored in the `World`.  A call made when its script is exhausted never returns: the
  function then yields `none`.
* Every operation appends what it did to `World.log`.
* Reading the array `pwattr` outside its bounds is undefined behaviour: `otp_pw_valid` then
  returns no verdict and the log records the index.
* Constants and types that live in headers outside this file (`otp.h`, `<errno.h>`,
  `<sys/un.h>`) are fields of the parameter `otp_h`.
-/

namespace OtpPwValid

/-! ## Types -/

/-- Module return codes of the host server, the enumeration `rlm_rcode_t`. -/
inductive rlm_rcode_t where
  | RLM_MODULE_REJECT
  | RLM_MODULE_FAIL
  | RLM_MODULE_OK
  | RLM_MODULE_HANDLED
  | RLM_MODULE_INVALID
  | RLM_MODULE_USERLOCK
  | RLM_MODULE_NOTFOUND
  | RLM_MODULE_NOOP
  | RLM_MODULE_UPDATED
  deriving DecidableEq, Repr

open rlm_rcode_t

/-- Reply frame `otp_reply_t`: version, status code and the passcode field (its bytes). -/
structure otp_reply_t where
  version : Int
  rc : Int
  passcode : List Nat
  deriving DecidableEq, Repr

/-- Constants and layout facts declared outside `otp_pw_valid.c`. -/
structure otp_h where
  OTP_RC_OK : Int
  OTP_RC_USER_UNKNOWN : Int
  OTP_RC_AUTHINFO_UNAVAIL : Int
  OTP_RC_AUTH_ERR : Int
  OTP_RC_MAXTRIES : Int
  OTP_RC_NEXTPASSCODE : Int
  OTP_RC_IPIN : Int
  OTP_RC_SERVICE_ERR : Int
  PWE_NONE : Int
  PWE_PAP : Int
  PWE_CHAP : Int
  PWE_MSCHAP : Int
  PWE_MSCHAP2 : Int
  OTP_MAX_USERNAME_LEN : Nat
  OTP_MAX_CHALLENGE_LEN : Nat
  OTP_MAX_PASSCODE_LEN : Nat
  /-- The value of `sizeof(otp_request_t)`. -/
  sizeof_request : Nat
  /-- The value of `sizeof(otp_reply_t)`. -/
  sizeof_reply : Nat
  /-- The struct view `(otp_reply_t *) buf` of the received bytes. -/
  reply_view : List Nat → otp_reply_t
  /-- The value of `sizeof(sa.sun_path)`. -/
  sizeof_sun_path : Nat
  EINTR : Int
  /-- The number of elements of the array `pwattr`. -/
  pwattr_len : Nat

/-- A pool node `otp_fd_t`: endpoint path, socket handle, mutex. -/
structure otp_fd_t where
  path : String
  fd : Int
  mutex : Bool
  deriving DecidableEq, Repr

/-- Result of one `write(2)` call: bytes written, or -1 with `errno`. -/
inductive WriteRet where
  | wrote (n : Nat)
  | err (errno : Int)
  deriving DecidableEq, Repr

/-- Result of one `read(2)` call: the bytes delivered (none at all is EOF), or -1 with `errno`. -/
inductive ReadRet where
  | data (bytes : List Nat)
  | err (errno : Int)
  deriving DecidableEq, Repr

/-- What the client did, in order. -/
inductive Event where
  | getfd_call
  | getfd_ret (fdp : Nat)
  | connect (path : String) (fd : Int)
  | write (fdp : Nat) (fd : Int) (off : Nat) (count : Nat)
  | read (fdp : Nat) (fd : Int) (off : Nat) (count : Nat)
  | putfd (fdp : Nat) (disconnect : Bool)
  | pwattr_out_of_bounds (index : Int)
  deriving DecidableEq, Repr

/-- Process state and environment. -/
structure World where
  /-- The chain starting at `otp_fd_head`. -/
  otp_fd_head : List otp_fd_t
  /-- Results of the coming `socket(2)` calls. -/
  sockets : List Int
  /-- Results of the coming `connect(2)` calls. -/
  connects : List Int
  /-- Results of the coming `write(2)` calls. -/
  writes : List WriteRet
  /-- Results of the coming `read(2)` calls. -/
  reads : List ReadRet
  log : List Event
  deriving DecidableEq, Repr

/-- Module configuration `rlm_otp_t` (the fields this file reads). -/
structure rlm_otp_t where
  otpd_rp : String
  allow_sync : Int
  allow_async : Int
  challenge_delay : Int
  deriving DecidableEq, Repr

/-! ## Pointers into the pool -/

/-- The node `*fdp`, if `fdp` points into the chain. -/
def deref : List otp_fd_t → Nat → Option otp_fd_t
  | [], _ => none
  | c :: rest, fdp => if fdp = rest.length then some c else deref rest fdp

/-- Assignment through `fdp`: the node it points to is replaced by `f` of it. -/
def store (f : otp_fd_t → otp_fd_t) : List otp_fd_t → Nat → List otp_fd_t
  | [], _ => []
  | c :: rest, fdp => if fdp = rest.length then f c :: rest else c :: store f rest fdp

/-- The field `fdp->fd`. -/
def fd_of (pool : List otp_fd_t) (fdp : Nat) : Int :=
  match deref pool fdp with
  | some c => c.fd
  | none => -1

/-- The field `fdp->path`. -/
def path_of (pool : List otp_fd_t) (fdp : Nat) : String :=
  match deref pool fdp with
  | some c => c.path
  | none => ""

/-! ## otprc2rlmrc -/

/-- Transform otpd return codes into rlm return codes (the `switch`, cases in source order). -/
def otprc2rlmrc (h : otp_h) (rc : Int) : rlm_rcode_t :=
  if rc = h.OTP_RC_OK then RLM_MODULE_OK
  else if rc = h.OTP_RC_USER_UNKNOWN then RLM_MODULE_REJECT
  else if rc = h.OTP_RC_AUTHINFO_UNAVAIL then RLM_MODULE_REJECT
  else if rc = h.OTP_RC_AUTH_ERR then RLM_MODULE_REJECT
  else if rc = h.OTP_RC_MAXTRIES then RLM_MODULE_USERLOCK
  else if rc = h.OTP_RC_NEXTPASSCODE then RLM_MODULE_USERLOCK
  else if rc = h.OTP_RC_IPIN then RLM_MODULE_REJECT
  else if rc = h.OTP_RC_SERVICE_ERR then RLM_MODULE_FAIL
  else RLM_MODULE_FAIL

/-! ## otp_putfd, otp_connect, otp_getfd -/

/-- Release fd, and optionally disconnect from otpd. -/
def otp_putfd (fdp : Nat) (disconnect : Bool) (w : World) : World :=
  let pool1 :=
    if disconnect then store (fun c => { c with fd := -1 }) w.otp_fd_head fdp
    else w.otp_fd_head
  { w with
    otp_fd_head := store (fun c => { c with mutex := false }) pool1 fdp
    log := w.log ++ [Event.putfd fdp disconnect] }

/-- Connect to otpd and return fd (`none`: a system call never returned). -/
def otp_connect (h : otp_h) (path : String) (w : World) : Option Int × World :=
  if path.utf8ByteSize > h.sizeof_sun_path - 1 then
    (some (-1), { w with log := w.log ++ [Event.connect path (-1)] })
  else
    match w.sockets with
    | [] => (none, w)
    | fd :: ss =>
      let w1 := { w with sockets := ss }
      if fd = -1 then
        (some (-1), { w1 with log := w1.log ++ [Event.connect path (-1)] })
      else
        match w1.connects with
        | [] => (none, w1)
        | r :: cs =>
          let w2 := { w1 with connects := cs }
          if r = -1 then
            (some (-1), { w2 with log := w2.log ++ [Event.connect path (-1)] })
          else
            (some fd, { w2 with log := w2.log ++ [Event.connect path fd] })

/-- The walk over the pool (the `for` loop of `otp_getfd`): the chain afterwards and the
node the loop stopped at (`none` is the null pointer). -/
def otp_getfd_walk (rp : String) : List otp_fd_t → List otp_fd_t × Option Nat
  | [] => ([], none)
  | c :: rest =>
    if c.mutex then
      -- trylock failed: on to the next node
      (c :: (otp_getfd_walk rp rest).1, (otp_getfd_walk rp rest).2)
    else if c.path = rp then
      -- trylock took the mutex and the path matches: break
      ({ c with mutex := true } :: rest, some rest.length)
    else
      -- trylock took the mutex, the path differs: on to the next node
      ({ c with mutex := true } :: (otp_getfd_walk rp rest).1, (otp_getfd_walk rp rest).2)

/-- The part of `otp_getfd` before "establish connection": the walk, and the allocation of a
new node at the head when the walk found none. -/
def otp_getfd_acquire (opt : rlm_otp_t) (w : World) : Nat × World :=
  let r := otp_getfd_walk opt.otpd_rp w.otp_fd_head
  let w0 := { w with log := w.log ++ [Event.getfd_call] }
  match r.2 with
  | some fdp => (fdp, { w0 with otp_fd_head := r.1 })
  | none =>
    (r.1.length,
      { w0 with otp_fd_head := { path := opt.otpd_rp, fd := -1, mutex := true } :: r.1 })

/-- Retrieve an fd (from pool) to use for otpd connection. -/
def otp_getfd (h : otp_h) (opt : rlm_otp_t) (w : World) : Option Nat × World :=
  let a := otp_getfd_acquire opt w
  if fd_of a.2.otp_fd_head a.1 = -1 then
    match otp_connect h (path_of a.2.otp_fd_head a.1) a.2 with
    | (none, w2) => (none, w2)
    | (some fd, w2) =>
      (some a.1,
        { w2 with
          otp_fd_head := store (fun c => { c with fd := fd }) w2.otp_fd_head a.1
          log := w2.log ++ [Event.getfd_ret a.1] })
  else
    (some a.1, { a.2 with log := a.2.log ++ [Event.getfd_ret a.1] })

/-! ## otp_write, otp_read -/

/-- The `while (nleft)` loop of `otp_write`, one iteration per scripted `write(2)` result.
The kernel never transfers more than it was asked to, hence the `min`.  The value returned on
failure is `errno` as left by the failed `write`. -/
def otp_write_loop (h : otp_h) (fdp len : Nat) : List WriteRet → Nat → World → Option Int × World
  | [], nleft, w =>
    if nleft = 0 then (some ((len - nleft : Nat) : Int), w) else (none, w)
  | r :: rest, nleft, w =>
    if nleft = 0 then (some ((len - nleft : Nat) : Int), w)
    else
      let w1 : World :=
        { w with
          writes := rest
          log := w.log ++ [Event.write fdp (fd_of w.otp_fd_head fdp) (len - nleft) nleft] }
      match r with
      | WriteRet.err errno =>
        if errno = h.EINTR then otp_write_loop h fdp len rest nleft w1
        else (some errno, otp_putfd fdp true w1)
      | WriteRet.wrote nwrote => otp_write_loop h fdp len rest (nleft - min nwrote nleft) w1

/-- Full write with logging, and close on failure.
Returns number of bytes written on success, errno on failure. -/
def otp_write (h : otp_h) (fdp len : Nat) (w : World) : Option Int × World :=
  otp_write_loop h fdp len w.writes len w

/-- The `while (nread < len)` loop of `otp_read`; `buf` holds the `nread` bytes received so
far. -/
def otp_read_loop (h : otp_h) (fdp len : Nat) :
    List ReadRet → List Nat → World → Option Int × List Nat × World
  | [], buf, w =>
    if buf.length < len then (none, buf, w) else (some (buf.length : Int), buf, w)
  | r :: rest, buf, w =>
    if buf.length < len then
      let w1 : World :=
        { w with
          reads := rest
          log := w.log ++
            [Event.read fdp (fd_of w.otp_fd_head fdp) buf.length (len - buf.length)] }
      match r with
      | ReadRet.err errno =>
        if errno = h.EINTR then otp_read_loop h fdp len rest buf w1
        else (some (-1), buf, otp_putfd fdp true w1)
      | ReadRet.data bytes =>
        if (bytes.take (len - buf.length)).length = 0 then (some 0, buf, otp_putfd fdp true w1)
        else otp_read_loop h fdp len rest (buf ++ bytes.take (len - buf.length)) w1
    else (some (buf.length : Int), buf, w)

/-- Full read with logging, and close on failure.
Returns nread on success, 0 on EOF, -1 on other failures. -/
def otp_read (h : otp_h) (fdp len : Nat) (w : World) : Option Int × List Nat × World :=
  otp_read_loop h fdp len w.reads [] w

/-! ## otp_verify -/

/-- How one pass through the body of `otp_verify` ends: a `return`, or `goto retry`. -/
inductive Pass where
  | ret (rc : Int)
  | retry
  deriving DecidableEq, Repr

/-- The body of `otp_verify` from the call of `otp_getfd` to the end of the function.
The second component is the reply buffer as far as it was received.  The source compares
`rc` with `sizeof(...)` in `size_t`; for a frame size below 2^31 that is the comparison of
integers made here (a negative `rc` is equal to no frame size either way).  `otp_getfd`
never returns a null pointer. -/
def otp_verify_pass (h : otp_h) (opt : rlm_otp_t) (reply : List Nat) (w : World) :
    Option Pass × List Nat × World :=
  match otp_getfd h opt w with
  | (none, w1) => (none, reply, w1)
  | (some fdp, w1) =>
    if fd_of w1.otp_fd_head fdp = -1 then (some (Pass.ret (-1)), reply, w1)
    else
      match otp_write h fdp h.sizeof_request w1 with
      | (none, w2) => (none, reply, w2)
      | (some rc, w2) =>
        if rc ≠ (h.sizeof_request : Int) then
          if rc = 0 then (some Pass.retry, reply, w2)
          else (some (Pass.ret (-1)), reply, w2)
        else
          match otp_read h fdp h.sizeof_reply w2 with
          | (none, buf, w3) => (none, buf, w3)
          | (some rc, buf, w3) =>
            if rc ≠ (h.sizeof_reply : Int) then
              if rc = 0 then (some Pass.retry, buf, w3)
              else (some (Pass.ret (-1)), buf, w3)
            else if (h.reply_view buf).version ≠ 1 then
              (some (Pass.ret (-1)), buf, otp_putfd fdp true w3)
            else if (h.reply_view buf).passcode.getD h.OTP_MAX_PASSCODE_LEN 0 ≠ 0 then
              (some (Pass.ret (-1)), buf, otp_putfd fdp true w3)
            else
              (some (Pass.ret (h.reply_view buf).rc), buf, otp_putfd fdp false w3)

/-- The function `otp_verify` from the label `retry:` on, with the current value of
`tryagain`. -/
def otp_verify_retry (h : otp_h) (opt : rlm_otp_t) :
    Nat → List Nat → World → Option Int × List Nat × World
  | 0, reply, w => (some (-1), reply, w)
  | tryagain + 1, reply, w =>
    match otp_verify_pass h opt reply w with
    | (none, buf, w1) => (none, buf, w1)
    | (some (Pass.ret rc), buf, w1) => (some rc, buf, w1)
    | (some Pass.retry, buf, w1) => otp_verify_retry h opt tryagain buf w1

/-- Verify an otp by asking otpd.
Returns an OTP_* code, or -1 on system failure.  Fills in reply. -/
def otp_verify (h : otp_h) (opt : rlm_otp_t) (reply : List Nat) (w : World) :
    Option Int × List Nat × World :=
  otp_verify_retry h opt 2 reply w

/-! ## otp_pw_valid -/

/-- An attribute `VALUE_PAIR`: `vp_octets` with `vp_length` its length; `vp_strvalue` is the
same buffer read as a C string. -/
structure VALUE_PAIR where
  vp_octets : List Nat
  deriving DecidableEq, Repr

/-- The field `vp_length`. -/
def VALUE_PAIR.vp_length (vp : VALUE_PAIR) : Nat := vp.vp_octets.length

/-- The bytes of a C string up to its terminator. -/
def cstr (s : List Nat) : List Nat := s.takeWhile (fun b => b != 0)

/-- The C library function `strlen`. -/
def strlen (s : List Nat) : Nat := (cstr s).length

/-- The C library function `strlcpy(dst, src, size)`: the destination afterwards and the
returned length of `src`. -/
def strlcpy (src : List Nat) (size : Nat) : List Nat × Nat :=
  ((cstr src).take (size - 1), strlen src)

/-- The request as the function reads it: `request->username` and the attribute lookups
`fr_pair_find_by_num(request->packet->vps, pwattr[i]->vendor, pwattr[i]->attr, TAG_ANY)` as a
function of the index `i` into `pwattr`.  The function is asked only for indexes inside the
array: reading `pwattr[i]` outside of it is undefined behaviour, which `otp_pw_valid` models
by itself. -/
structure REQUEST where
  username : VALUE_PAIR
  find_pwattr : Int → Option VALUE_PAIR

/-- The union `otp_request.pwe.u`. -/
inductive otp_pwe_u where
  | unset
  | pap (passcode : List Nat)
  | chap (challenge : List Nat) (clen : Nat) (response : List Nat) (rlen : Nat)
  deriving DecidableEq, Repr

/-- Request frame `otp_request_t`. -/
structure otp_request_t where
  version : Int
  username : List Nat
  challenge : List Nat
  pwe : Int
  u : otp_pwe_u
  allow_sync : Int
  allow_async : Int
  challenge_delay : Int
  resync : Int
  deriving DecidableEq, Repr

/-- The statement `switch (otp_request.pwe.pwe)` of `otp_pw_valid`: either a `return` inside
it, or the union as the switch leaves it. -/
def otp_pw_valid_switch (h : otp_h) (pwe : Int) (cvp rvp : VALUE_PAIR) :
    Except rlm_rcode_t otp_pwe_u :=
  if pwe = h.PWE_NONE then Except.error RLM_MODULE_NOOP
  else if pwe = h.PWE_PAP then
    if (strlcpy rvp.vp_octets (h.OTP_MAX_PASSCODE_LEN + 1)).2 ≥ h.OTP_MAX_PASSCODE_LEN + 1 then
      Except.error RLM_MODULE_REJECT
    else Except.ok (otp_pwe_u.pap (strlcpy rvp.vp_octets (h.OTP_MAX_PASSCODE_LEN + 1)).1)
  else if pwe = h.PWE_CHAP then
    if cvp.vp_length > 16 then Except.error RLM_MODULE_INVALID
    else if rvp.vp_length ≠ 17 then Except.error RLM_MODULE_INVALID
    else Except.ok (otp_pwe_u.chap cvp.vp_octets cvp.vp_length rvp.vp_octets rvp.vp_length)
  else if pwe = h.PWE_MSCHAP then
    if cvp.vp_length ≠ 8 then Except.error RLM_MODULE_INVALID
    else if rvp.vp_length ≠ 50 then Except.error RLM_MODULE_INVALID
    else Except.ok (otp_pwe_u.chap cvp.vp_octets cvp.vp_length rvp.vp_octets rvp.vp_length)
  else if pwe = h.PWE_MSCHAP2 then
    if cvp.vp_length ≠ 16 then Except.error RLM_MODULE_INVALID
    else if rvp.vp_length ≠ 50 then Except.error RLM_MODULE_INVALID
    else Except.ok (otp_pwe_u.chap cvp.vp_octets cvp.vp_length rvp.vp_octets rvp.vp_length)
  else Except.ok otp_pwe_u.unset

/-- The call `otp_verify(request, opt, &otp_request, &otp_reply)`: of the request frame only
its size reaches the transport. -/
def otp_verify_call (h : otp_h) (opt : rlm_otp_t) (_otp_request : otp_request_t)
    (w : World) : Option Int × List Nat × World :=
  otp_verify h opt [] w

/-- Test for passcode validity by asking otpd.
Returns one of the RLM_MODULE_* codes and the passcode filled in, if it was.  No code
(`none`) is returned when a system call never returned, and when the function reads
`pwattr[pwe - 1]` or `pwattr[pwe]` outside the array: the behaviour is then undefined, the
log records the fact and nothing is said about what follows. -/
def otp_pw_valid (h : otp_h) (request : REQUEST) (pwe : Int) (challenge : List Nat)
    (opt : rlm_otp_t) (w : World) : Option rlm_rcode_t × Option (List Nat) × World :=
  if (strlcpy request.username.vp_octets (h.OTP_MAX_USERNAME_LEN + 1)).2
      ≥ h.OTP_MAX_USERNAME_LEN + 1 then
    (some RLM_MODULE_REJECT, none, w)
  else if (strlcpy challenge (h.OTP_MAX_CHALLENGE_LEN + 1)).2 ≥ h.OTP_MAX_CHALLENGE_LEN + 1 then
    (some RLM_MODULE_REJECT, none, w)
  else if pwe - 1 < 0 ∨ (h.pwattr_len : Int) ≤ pwe then
    -- pwattr[pwe - 1] or pwattr[pwe] lies outside the array
    (none, none, { w with log := w.log ++ [Event.pwattr_out_of_bounds (pwe - 1)] })
  else
    match request.find_pwattr (pwe - 1), request.find_pwattr pwe with
    | some cvp, some rvp =>
      match otp_pw_valid_switch h pwe cvp rvp with
      | Except.error rcode => (some rcode, none, w)
      | Except.ok u =>
        let otp_request : otp_request_t :=
          { version := 2
            username :=
              ((strlcpy request.username.vp_octets (h.OTP_MAX_USERNAME_LEN + 1)).1).take
                h.OTP_MAX_USERNAME_LEN
            challenge :=
              ((strlcpy challenge (h.OTP_MAX_CHALLENGE_LEN + 1)).1).take h.OTP_MAX_CHALLENGE_LEN
            pwe := pwe
            u :=
              if pwe = h.PWE_PAP then
                match u with
                | otp_pwe_u.pap passcode => otp_pwe_u.pap (passcode.take h.OTP_MAX_PASSCODE_LEN)
                | other => other
              else u
            allow_sync := opt.allow_sync
            allow_async := opt.allow_async
            challenge_delay := opt.challenge_delay
            resync := 1 }
        match otp_verify_call h opt otp_request w with
        | (none, _, w1) => (none, none, w1)
        | (some rc, reply, w1) =>
          (some (otprc2rlmrc h rc),
            if rc = h.OTP_RC_OK then some (cstr (h.reply_view reply).passcode) else none,
            w1)
    | _, _ => (some RLM_MODULE_REJECT, none, w)

/-! ## A concrete header and a loopback test bed -/

/-- Little-endian value of four bytes, as a signed 32-bit integer. -/
def le32 (b : List Nat) : Int :=
  let u := b.getD 0 0 + 256 * b.getD 1 0 + 65536 * b.getD 2 0 + 16777216 * b.getD 3 0
  if u < 2147483648 then (u : Int) else (u : Int) - 4294967296

/-- A concrete header, used to run the definitions on concrete inputs; the sizes follow the
layout of the two frames on a 64-bit little-endian machine. -/
def hdr : otp_h where
  OTP_RC_OK := 0
  OTP_RC_USER_UNKNOWN := 1
  OTP_RC_AUTHINFO_UNAVAIL := 2
  OTP_RC_AUTH_ERR := 3
  OTP_RC_MAXTRIES := 4
  OTP_RC_NEXTPASSCODE := 6
  OTP_RC_IPIN := 7
  OTP_RC_SERVICE_ERR := 5
  PWE_NONE := 0
  PWE_PAP := 1
  PWE_CHAP := 3
  PWE_MSCHAP := 5
  PWE_MSCHAP2 := 7
  OTP_MAX_USERNAME_LEN := 31
  OTP_MAX_CHALLENGE_LEN := 16
  OTP_MAX_PASSCODE_LEN := 47
  sizeof_request := 168
  sizeof_reply := 56
  reply_view := fun b =>
    { version := le32 b, rc := le32 (b.drop 4), passcode := (b.drop 8).take 48 }
  sizeof_sun_path := 108
  EINTR := 4
  pwattr_len := 8

/-- The configuration used in the examples. -/
def opt0 : rlm_otp_t :=
  { otpd_rp := "/var/run/otpd/socket", allow_sync := 1, allow_async := 0, challenge_delay := 30 }

/-- A world with an empty pool and empty scripts. -/
def World.empty : World :=
  { otp_fd_head := [], sockets := [], connects := [], writes := [], reads := [], log := [] }

/-! ## Vocabulary of the statements -/

/-- The eight status codes of the reply, in the order of the `switch`. -/
def otp_h.rc_codes (h : otp_h) : List Int :=
  [h.OTP_RC_OK, h.OTP_RC_USER_UNKNOWN, h.OTP_RC_AUTHINFO_UNAVAIL, h.OTP_RC_AUTH_ERR,
    h.OTP_RC_MAXTRIES, h.OTP_RC_NEXTPASSCODE, h.OTP_RC_IPIN, h.OTP_RC_SERVICE_ERR]

/-- The case labels are pairwise different (C demands it) and none of them is the
system-failure value -1 of `otp_verify`. -/
def otp_h.rc_wf (h : otp_h) : Prop := h.rc_codes.Nodup ∧ (-1 : Int) ∉ h.rc_codes

instance (h : otp_h) : Decidable h.rc_wf := by unfold otp_h.rc_wf; infer_instance

/-- The five case labels of the `switch` in `otp_pw_valid`. -/
def otp_h.pwe_codes (h : otp_h) : List Int :=
  [h.PWE_NONE, h.PWE_PAP, h.PWE_CHAP, h.PWE_MSCHAP, h.PWE_MSCHAP2]

/-- The case labels are pairwise different (C demands it), and for the four variants that
carry a credential `pwattr[pwe - 1]` and `pwattr[pwe]` lie inside the array. -/
def otp_h.pwe_wf (h : otp_h) : Prop :=
  h.pwe_codes.Nodup ∧
    ∀ p ∈ [h.PWE_PAP, h.PWE_CHAP, h.PWE_MSCHAP, h.PWE_MSCHAP2],
      1 ≤ p ∧ p < (h.pwattr_len : Int)

instance (h : otp_h) : Decidable h.pwe_wf := by unfold otp_h.pwe_wf; infer_instance

/-- Number of calls of `otp_getfd` recorded in a log. -/
def getfd_calls (log : List Event) : Nat := log.count Event.getfd_call

/-- The reply frame was received in full in a pass through the body of `otp_verify` started
in world `w`: `otp_getfd` returned the open connection `fdp`, the request was written, and
`otp_read` returned the full frame `buf`, leaving world `w3`. -/
def Received (h : otp_h) (opt : rlm_otp_t) (w : World) (fdp : Nat) (buf : List Nat)
    (w3 : World) : Prop :=
  ∃ w1 w2, otp_getfd h opt w = (some fdp, w1) ∧ fd_of w1.otp_fd_head fdp ≠ -1 ∧
    otp_write h fdp h.sizeof_request w1 = (some (h.sizeof_request : Int), w2) ∧
    otp_read h fdp h.sizeof_reply w2 = (some (h.sizeof_reply : Int), buf, w3)

/-- The reply in `buf` has a version other than 1, or no NUL among the
`OTP_MAX_PASSCODE_LEN + 1` bytes of its passcode field. -/
def reply_invalid (h : otp_h) (buf : List Nat) : Prop :=
  (h.reply_view buf).version ≠ 1 ∨
    ∀ i, i ≤ h.OTP_MAX_PASSCODE_LEN → (h.reply_view buf).passcode.getD i 0 ≠ 0

/-- The number of bytes a scripted `write(2)` result transfers. -/
def WriteRet.bytes : WriteRet → Nat
  | WriteRet.wrote n => n
  | WriteRet.err _ => 0

/-- The number of bytes a scripted `read(2)` result delivers. -/
def ReadRet.bytes : ReadRet → Nat
  | ReadRet.data b => b.length
  | ReadRet.err _ => 0

/-- The `write` calls `pre` are interrupted (EINTR) or transfer bytes, and fewer than `len`
bytes in all: a full write of `len` bytes is still under way after them. -/
def writes_short (h : otp_h) (len : Nat) (pre : List WriteRet) : Prop :=
  (∀ r ∈ pre, r = WriteRet.err h.EINTR ∨ ∃ n, r = WriteRet.wrote n) ∧
    (pre.map WriteRet.bytes).sum < len

/-- The `read` calls `pre` are interrupted (EINTR) or deliver at least one byte, and fewer
than `len` bytes in all: a full read of `len` bytes is still under way after them. -/
def reads_short (h : otp_h) (len : Nat) (pre : List ReadRet) : Prop :=
  (∀ r ∈ pre, r = ReadRet.err h.EINTR ∨ ∃ b, r = ReadRet.data b ∧ b ≠ []) ∧
    (pre.map ReadRet.bytes).sum < len

/-- Every event of `evs` is a `write` or a `read` call on the connection `fdp`. -/
def io_on (fdp : Nat) (evs : List Event) : Prop :=
  ∀ ev ∈ evs, (∃ fd off cnt, ev = Event.write fdp fd off cnt) ∨
    (∃ fd off cnt, ev = Event.read fdp fd off cnt)

/-! ## Concrete inputs -/

/-- A reply frame for `hdr`: version 1, status ok, passcode "123". -/
def reply_ok : List Nat := [1, 0, 0, 0, 0, 0, 0, 0] ++ [49, 50, 51, 0] ++ List.replicate 44 0

/-- A reply frame for `hdr` with version 3. -/
def reply_v3 : List Nat := [3, 0, 0, 0, 0, 0, 0, 0] ++ [49, 50, 51, 0] ++ List.replicate 44 0

/-- The daemon accepts every connection, takes each request whole, hangs up on the first
two connections and would answer on the third. -/
def world_two_hangups : World :=
  { World.empty with
    sockets := [5, 6, 7]
    connects := [0, 0, 0]
    writes := [WriteRet.wrote 168, WriteRet.wrote 168, WriteRet.wrote 168]
    reads := [ReadRet.data [], ReadRet.data [], ReadRet.data reply_ok] }

/-- The daemon answers the request with a version 3 reply. -/
def world_bad_version : World :=
  { World.empty with
    sockets := [5]
    connects := [0]
    writes := [WriteRet.wrote 168]
    reads := [ReadRet.data reply_v3] }

/-- The daemon is not listening: `socket` succeeds and `connect` fails. -/
def world_daemon_down : World :=
  { World.empty with sockets := [5], connects := [-1] }

/-- The pool holds one free connection, to another endpoint than the one of `opt0`. -/
def world_other_endpoint : World :=
  { World.empty with
    otp_fd_head := [{ path := "/var/run/otpd2/socket", fd := 7, mutex := false }]
    sockets := [5]
    connects := [0] }

/-- The caller holds connection 0; the first `write` returns 0, the second takes the whole
frame. -/
def world_zero_write : World :=
  { World.empty with
    otp_fd_head := [{ path := "/var/run/otpd/socket", fd := 7, mutex := true }]
    writes := [WriteRet.wrote 0, WriteRet.wrote 168] }

/-- One open free connection; `write` fails with an `errno` equal to the size of the request
frame, and a `read` on the closed handle fails with EBADF. -/
def world_errno_is_frame_size : World :=
  { World.empty with
    otp_fd_head := [{ path := "/var/run/otpd/socket", fd := 7, mutex := false }]
    writes := [WriteRet.err 168]
    reads := [ReadRet.err 9] }

/-- One open free connection; `write` fails with `errno` 0, and after the reconnect the
daemon takes the request and answers ok. -/
def world_errno_is_zero : World :=
  { World.empty with
    otp_fd_head := [{ path := "/var/run/otpd/socket", fd := 7, mutex := false }]
    sockets := [5]
    connects := [0]
    writes := [WriteRet.err 0, WriteRet.wrote 168]
    reads := [ReadRet.data reply_ok] }

/-- Three connections, head first: a free one to another endpoint, a held one to the endpoint
of `opt0`, and a free open one to the endpoint of `opt0`. -/
def world_three_nodes : World :=
  { World.empty with
    otp_fd_head :=
      [{ path := "/var/run/otpd2/socket", fd := 7, mutex := false },
       { path := "/var/run/otpd/socket", fd := 8, mutex := true },
       { path := "/var/run/otpd/socket", fd := 9, mutex := false }]
    sockets := [5]
    connects := [0] }

/-- A world with one open free connection on which `write` fails with ECONNRESET. -/
def world_connreset : World :=
  { World.empty with
    otp_fd_head := [{ path := "/var/run/otpd/socket", fd := 7, mutex := false }]
    writes := [WriteRet.wrote 100, WriteRet.err 104] }

/-- The daemon accepts the connection; the first `write` of the request returns 0, the next
one takes the whole frame, and the daemon answers ok.  A second connection would be served
in the same way. -/
def world_zero_write_in_send : World :=
  { World.empty with
    sockets := [5, 6]
    connects := [0, 0]
    writes := [WriteRet.wrote 0, WriteRet.wrote 168, WriteRet.wrote 168]
    reads := [ReadRet.data reply_ok, ReadRet.data reply_ok] }

/-- The daemon accepts the connection and closes it before the request is written: `write`
fails with EPIPE.  A second connection would be served. -/
def world_epipe_in_send : World :=
  { World.empty with
    sockets := [5, 6]
    connects := [0, 0]
    writes := [WriteRet.err 32, WriteRet.wrote 168]
    reads := [ReadRet.data reply_ok] }

/-- A request whose user name has 32 bytes and whose attribute lookups all succeed. -/
def request_long_username : REQUEST :=
  { username := { vp_octets := List.replicate 32 97 }
    find_pwattr := fun _ => some { vp_octets := [] } }

/-- A CHAP request of user "bob": the challenge attribute has 17 bytes, the response 17. -/
def request_chap_long : REQUEST :=
  { username := { vp_octets := [98, 111, 98] }
    find_pwattr := fun _ => some { vp_octets := List.replicate 17 1 } }

/-! ## Lemmas: pointers and the walk over the pool -/

theorem store_length (f : otp_fd_t → otp_fd_t) (pool : List otp_fd_t) (p : Nat) :
    (store f pool p).length = pool.length := by
  induction pool with
  | nil => rfl
  | cons c rest ih =>
    unfold store
    split_ifs <;> simp [ih]

theorem deref_isSome (pool : List otp_fd_t) (p : Nat) (hp : p < pool.length) :
    ∃ c, deref pool p = some c := by
  induction pool with
  | nil => simp at hp
  | cons c rest ih =>
    simp only [List.length_cons] at hp
    unfold deref
    by_cases e : p = rest.length
    · exact ⟨c, by rw [if_pos e]⟩
    · rw [if_neg e]; exact ih (by omega)

theorem deref_store (f : otp_fd_t → otp_fd_t) (pool : List otp_fd_t) (p q : Nat) :
    deref (store f pool p) q = if q = p then (deref pool q).map f else deref pool q := by
  induction pool with
  | nil => simp [store, deref]
  | cons c rest ih =>
    unfold store
    by_cases e : p = rest.length
    · rw [if_pos e]
      unfold deref
      by_cases e2 : q = rest.length
      · simp [e2, e]
      · have : q ≠ p := by omega
        simp [e2, this]
    · rw [if_neg e]
      unfold deref
      rw [store_length]
      by_cases e2 : q = rest.length
      · have : q ≠ p := by omega
        rw [if_pos e2, if_neg this, if_pos e2]
      · simp only [e2, if_false]
        exact ih

theorem deref_append (pre post : List otp_fd_t) (c : otp_fd_t) :
    deref (pre ++ c :: post) post.length = some c := by
  induction pre with
  | nil => simp [deref]
  | cons x pre ih =>
    simp only [List.cons_append]
    unfold deref
    rw [if_neg (by simp; omega)]
    exact ih

theorem walk_length (rp : String) (pool : List otp_fd_t) :
    (otp_getfd_walk rp pool).1.length = pool.length := by
  induction pool with
  | nil => rfl
  | cons c rest ih =>
    unfold otp_getfd_walk
    split_ifs <;> simp [ih]

theorem walk_found (rp : String) (pre post : List otp_fd_t) (c : otp_fd_t)
    (hpre : ∀ x ∈ pre, x.mutex = true ∨ x.path ≠ rp) (hc1 : c.mutex = false)
    (hc2 : c.path = rp) :
    otp_getfd_walk rp (pre ++ c :: post) =
      (pre.map (fun x => { x with mutex := true }) ++ { c with mutex := true } :: post,
        some post.length) := by
  induction pre with
  | nil => simp [otp_getfd_walk, hc1, hc2]
  | cons x pre ih =>
    have ih2 := ih (fun y hy => hpre y (List.mem_cons_of_mem _ hy))
    simp only [List.cons_append, List.map_cons]
    unfold otp_getfd_walk
    rw [ih2]
    rcases hpre x (List.mem_cons_self _ _) with hx | hx
    · simp [hx]
      cases x; simp_all
    · by_cases hm : x.mutex = true
      · simp [hm]
        cases x; simp_all
      · simp [hm, hx]

theorem walk_none (rp : String) (pool : List otp_fd_t)
    (hall : ∀ x ∈ pool, x.mutex = true ∨ x.path ≠ rp) :
    otp_getfd_walk rp pool = (pool.map (fun x => { x with mutex := true }), none) := by
  induction pool with
  | nil => rfl
  | cons x pool ih =>
    have ih2 := ih (fun y hy => hall y (List.mem_cons_of_mem _ hy))
    simp only [List.map_cons]
    unfold otp_getfd_walk
    rw [ih2]
    rcases hall x (List.mem_cons_self _ _) with hx | hx
    · simp [hx]
      cases x; simp_all
    · by_cases hm : x.mutex = true
      · simp [hm]
        cases x; simp_all
      · simp [hm, hx]

/-! ## Lemmas: otp_connect and otp_getfd -/

theorem otp_connect_pool (h : otp_h) (path : String) (w : World) :
    (otp_connect h path w).2.otp_fd_head = w.otp_fd_head := by
  unfold otp_connect
  split_ifs
  · rfl
  · rcases hsock : w.sockets with _ | ⟨fd, ss⟩
    · rfl
    · dsimp only
      split_ifs
      · rfl
      · rcases hcon : w.connects with _ | ⟨r, cs⟩
        · rfl
        · dsimp only
          split_ifs <;> rfl

theorem otp_connect_returns (h : otp_h) (path : String) (w : World)
    (hs : w.sockets ≠ []) (hc : w.connects ≠ []) :
    ∃ fd, (otp_connect h path w).1 = some fd := by
  unfold otp_connect
  split_ifs
  · exact ⟨_, rfl⟩
  · cases hsock : w.sockets with
    | nil => exact absurd hsock hs
    | cons fd ss =>
      dsimp only
      split_ifs
      · exact ⟨_, rfl⟩
      · cases hcon : w.connects with
        | nil => exact absurd hcon hc
        | cons r cs =>
          simp only [hcon]
          split_ifs <;> exact ⟨_, rfl⟩

theorem first_free_split (rp : String) (pool : List otp_fd_t) :
    (∀ x ∈ pool, x.mutex = true ∨ x.path ≠ rp) ∨
      ∃ pre c post, pool = pre ++ c :: post ∧ (∀ x ∈ pre, x.mutex = true ∨ x.path ≠ rp) ∧
        c.mutex = false ∧ c.path = rp := by
  induction pool with
  | nil => left; simp
  | cons x pool ih =>
    by_cases hx : x.mutex = true ∨ x.path ≠ rp
    · rcases ih with hall | ⟨pre, c, post, e, hpre, h1, h2⟩
      · left
        intro y hy
        rcases List.mem_cons.mp hy with e | hy
        · subst e; exact hx
        · exact hall y hy
      · right
        refine ⟨x :: pre, c, post, by simp [e], ?_, h1, h2⟩
        intro y hy
        rcases List.mem_cons.mp hy with e | hy
        · subst e; exact hx
        · exact hpre y hy
    · right
      refine ⟨[], x, pool, rfl, by simp, ?_, ?_⟩
      · simp only [not_or, Bool.not_eq_true] at hx; exact hx.1
      · simp only [not_or, ne_eq, not_not] at hx; exact hx.2

theorem acquire_sockets (opt : rlm_otp_t) (w : World) :
    (otp_getfd_acquire opt w).2.sockets = w.sockets := by
  unfold otp_getfd_acquire
  dsimp only
  split <;> rfl

theorem acquire_connects (opt : rlm_otp_t) (w : World) :
    (otp_getfd_acquire opt w).2.connects = w.connects := by
  unfold otp_getfd_acquire
  dsimp only
  split <;> rfl

theorem otp_getfd_eq (h : otp_h) (opt : rlm_otp_t) (w : World)
    (hs : w.sockets ≠ []) (hc : w.connects ≠ []) :
    ∃ w', otp_getfd h opt w = (some (otp_getfd_acquire opt w).1, w') ∧
      (fd_of (otp_getfd_acquire opt w).2.otp_fd_head (otp_getfd_acquire opt w).1 ≠ -1 →
        w'.otp_fd_head = (otp_getfd_acquire opt w).2.otp_fd_head) ∧
      (fd_of (otp_getfd_acquire opt w).2.otp_fd_head (otp_getfd_acquire opt w).1 = -1 →
        ∃ fd, w'.otp_fd_head = store (fun c => { c with fd := fd })
          (otp_getfd_acquire opt w).2.otp_fd_head (otp_getfd_acquire opt w).1) := by
  have hs0 := acquire_sockets opt w
  have hc0 := acquire_connects opt w
  unfold otp_getfd
  dsimp only
  generalize otp_getfd_acquire opt w = a at hs0 hc0 ⊢
  by_cases hfd : fd_of a.2.otp_fd_head a.1 = -1
  · rw [if_pos hfd]
    obtain ⟨fd, hfd2⟩ := otp_connect_returns h (path_of a.2.otp_fd_head a.1) a.2
      (by rw [hs0]; exact hs) (by rw [hc0]; exact hc)
    have hp := otp_connect_pool h (path_of a.2.otp_fd_head a.1) a.2
    rcases hoc : otp_connect h (path_of a.2.otp_fd_head a.1) a.2 with ⟨r, wc⟩
    rw [hoc] at hfd2 hp
    dsimp only at hfd2 hp
    subst hfd2
    dsimp only
    refine ⟨_, rfl, fun hne => absurd hfd hne, fun _ => ⟨fd, ?_⟩⟩
    dsimp only
    rw [hp]
  · rw [if_neg hfd]
    exact ⟨_, rfl, fun _ => rfl, fun e => absurd e hfd⟩

theorem store_map_path (f : otp_fd_t → otp_fd_t) (hf : ∀ c, (f c).path = c.path)
    (pool : List otp_fd_t) (p : Nat) :
    (store f pool p).map (fun c => c.path) = pool.map (fun c => c.path) := by
  induction pool with
  | nil => rfl
  | cons c rest ih =>
    unfold store
    split_ifs
    · simp [hf]
    · simp [ih]

theorem acquire_found (opt : rlm_otp_t) (w : World) (pre post : List otp_fd_t) (c : otp_fd_t)
    (hw : w.otp_fd_head = pre ++ c :: post)
    (hpre : ∀ x ∈ pre, x.mutex = true ∨ x.path ≠ opt.otpd_rp) (hc1 : c.mutex = false)
    (hc2 : c.path = opt.otpd_rp) :
    (otp_getfd_acquire opt w).1 = post.length ∧
      (otp_getfd_acquire opt w).2.otp_fd_head =
        pre.map (fun x => { x with mutex := true }) ++ { c with mutex := true } :: post := by
  unfold otp_getfd_acquire
  rw [hw, walk_found opt.otpd_rp pre post c hpre hc1 hc2]
  exact ⟨rfl, rfl⟩

theorem acquire_none (opt : rlm_otp_t) (w : World)
    (hall : ∀ x ∈ w.otp_fd_head, x.mutex = true ∨ x.path ≠ opt.otpd_rp) :
    (otp_getfd_acquire opt w).1 = w.otp_fd_head.length ∧
      (otp_getfd_acquire opt w).2.otp_fd_head =
        { path := opt.otpd_rp, fd := -1, mutex := true } ::
          w.otp_fd_head.map (fun x => { x with mutex := true }) := by
  unfold otp_getfd_acquire
  rw [walk_none opt.otpd_rp w.otp_fd_head hall]
  exact ⟨by simp, rfl⟩


/-! ## Lemmas: what the transport leaves alone -/

theorem getfd_calls_append (a b : List Event) :
    getfd_calls (a ++ b) = getfd_calls a + getfd_calls b := by
  unfold getfd_calls; exact List.count_append _ _ _

theorem otp_putfd_length (fdp : Nat) (d : Bool) (w : World) :
    (otp_putfd fdp d w).otp_fd_head.length = w.otp_fd_head.length := by
  unfold otp_putfd
  dsimp only
  split_ifs <;> simp [store_length]

theorem otp_putfd_calls (fdp : Nat) (d : Bool) (w : World) :
    getfd_calls (otp_putfd fdp d w).log = getfd_calls w.log := by
  unfold otp_putfd
  dsimp only
  rw [getfd_calls_append]
  simp [getfd_calls]

theorem otp_putfd_drop (fdp : Nat) (w : World) (hp : fdp < w.otp_fd_head.length) :
    ∃ c, deref (otp_putfd fdp true w).otp_fd_head fdp = some c ∧ c.fd = -1 ∧ c.mutex = false := by
  obtain ⟨c, hc⟩ := deref_isSome w.otp_fd_head fdp hp
  refine ⟨{ c with fd := -1, mutex := false }, ?_, rfl, rfl⟩
  unfold otp_putfd
  simp [deref_store, hc]

theorem otp_write_loop_length (h : otp_h) (fdp len : Nat) (script : List WriteRet) :
    ∀ (nleft : Nat) (w : World),
      (otp_write_loop h fdp len script nleft w).2.otp_fd_head.length = w.otp_fd_head.length ∧
      getfd_calls (otp_write_loop h fdp len script nleft w).2.log = getfd_calls w.log := by
  induction script with
  | nil =>
    intro nleft w
    unfold otp_write_loop
    split_ifs <;> exact ⟨rfl, rfl⟩
  | cons r rest ih =>
    intro nleft w
    unfold otp_write_loop
    split_ifs
    · exact ⟨rfl, rfl⟩
    · dsimp only
      cases r with
      | wrote n =>
        dsimp only
        obtain ⟨h1, h2⟩ := ih (nleft - min n nleft) { w with
          writes := rest
          log := w.log ++ [Event.write fdp (fd_of w.otp_fd_head fdp) (len - nleft) nleft] }
        refine ⟨h1, ?_⟩
        rw [h2, getfd_calls_append]; simp [getfd_calls]
      | err e =>
        dsimp only
        split_ifs
        · obtain ⟨h1, h2⟩ := ih nleft { w with
            writes := rest
            log := w.log ++ [Event.write fdp (fd_of w.otp_fd_head fdp) (len - nleft) nleft] }
          refine ⟨h1, ?_⟩
          rw [h2, getfd_calls_append]; simp [getfd_calls]
        · refine ⟨?_, ?_⟩
          · rw [otp_putfd_length]
          · rw [otp_putfd_calls, getfd_calls_append]; simp [getfd_calls]

theorem otp_read_loop_length (h : otp_h) (fdp len : Nat) (script : List ReadRet) :
    ∀ (buf : List Nat) (w : World),
      (otp_read_loop h fdp len script buf w).2.2.otp_fd_head.length = w.otp_fd_head.length ∧
      getfd_calls (otp_read_loop h fdp len script buf w).2.2.log = getfd_calls w.log := by
  induction script with
  | nil =>
    intro buf w
    unfold otp_read_loop
    split_ifs <;> exact ⟨rfl, rfl⟩
  | cons r rest ih =>
    intro buf w
    unfold otp_read_loop
    split_ifs
    · dsimp only
      cases r with
      | data bytes =>
        dsimp only
        split_ifs
        · refine ⟨?_, ?_⟩
          · rw [otp_putfd_length]
          · rw [otp_putfd_calls, getfd_calls_append]; simp [getfd_calls]
        · obtain ⟨h1, h2⟩ := ih (buf ++ bytes.take (len - buf.length)) { w with
            reads := rest
            log := w.log ++
              [Event.read fdp (fd_of w.otp_fd_head fdp) buf.length (len - buf.length)] }
          refine ⟨h1, ?_⟩
          rw [h2, getfd_calls_append]; simp [getfd_calls]
      | err e =>
        dsimp only
        split_ifs
        · obtain ⟨h1, h2⟩ := ih buf { w with
            reads := rest
            log := w.log ++
              [Event.read fdp (fd_of w.otp_fd_head fdp) buf.length (len - buf.length)] }
          refine ⟨h1, ?_⟩
          rw [h2, getfd_calls_append]; simp [getfd_calls]
        · refine ⟨?_, ?_⟩
          · rw [otp_putfd_length]
          · rw [otp_putfd_calls, getfd_calls_append]; simp [getfd_calls]
    · exact ⟨rfl, rfl⟩

theorem otp_connect_calls (h : otp_h) (path : String) (w : World) :
    getfd_calls (otp_connect h path w).2.log = getfd_calls w.log := by
  unfold otp_connect
  split_ifs
  · dsimp only; rw [getfd_calls_append]; simp [getfd_calls]
  · rcases hsock : w.sockets with _ | ⟨fd, ss⟩
    · rfl
    · dsimp only
      split_ifs
      · dsimp only; rw [getfd_calls_append]; simp [getfd_calls]
      · rcases hcon : w.connects with _ | ⟨r, cs⟩
        · rfl
        · dsimp only
          split_ifs <;> (dsimp only; rw [getfd_calls_append]; simp [getfd_calls])

theorem acquire_log (opt : rlm_otp_t) (w : World) :
    (otp_getfd_acquire opt w).2.log = w.log ++ [Event.getfd_call] := by
  unfold otp_getfd_acquire
  dsimp only
  split <;> rfl

theorem acquire_valid (opt : rlm_otp_t) (w : World) :
    (otp_getfd_acquire opt w).1 < (otp_getfd_acquire opt w).2.otp_fd_head.length := by
  rcases first_free_split opt.otpd_rp w.otp_fd_head with hall | ⟨pre, c, post, hw, hpre, h1, h2⟩
  · obtain ⟨e1, e2⟩ := acquire_none opt w hall
    rw [e1, e2]; simp
  · obtain ⟨e1, e2⟩ := acquire_found opt w pre post c hw hpre h1 h2
    rw [e1, e2]; simp; omega

theorem otp_getfd_calls (h : otp_h) (opt : rlm_otp_t) (w : World) :
    getfd_calls (otp_getfd h opt w).2.log = getfd_calls w.log + 1 := by
  have hl := acquire_log opt w
  have hcc := otp_connect_calls h
    (path_of (otp_getfd_acquire opt w).2.otp_fd_head (otp_getfd_acquire opt w).1)
    (otp_getfd_acquire opt w).2
  unfold otp_getfd
  dsimp only
  generalize otp_getfd_acquire opt w = a at hl hcc ⊢
  have hbase : getfd_calls a.2.log = getfd_calls w.log + 1 := by
    rw [hl, getfd_calls_append]; simp [getfd_calls]
  split_ifs
  · rcases hoc : otp_connect h (path_of a.2.otp_fd_head a.1) a.2 with ⟨r, wc⟩
    rw [hoc] at hcc
    dsimp only at hcc
    cases r with
    | none => dsimp only; rw [hcc, hbase]
    | some fd =>
      dsimp only
      rw [getfd_calls_append, hcc, hbase]; simp [getfd_calls]
  · dsimp only
    rw [getfd_calls_append, hbase]; simp [getfd_calls]

theorem otp_getfd_valid (h : otp_h) (opt : rlm_otp_t) (w w1 : World) (fdp : Nat)
    (hg : otp_getfd h opt w = (some fdp, w1)) : fdp < w1.otp_fd_head.length := by
  have hv := acquire_valid opt w
  have hp := otp_connect_pool h
    (path_of (otp_getfd_acquire opt w).2.otp_fd_head (otp_getfd_acquire opt w).1)
    (otp_getfd_acquire opt w).2
  unfold otp_getfd at hg
  dsimp only at hg
  generalize otp_getfd_acquire opt w = a at hv hp hg
  split_ifs at hg
  · rcases hoc : otp_connect h (path_of a.2.otp_fd_head a.1) a.2 with ⟨r, wc⟩
    rw [hoc] at hp hg
    dsimp only at hp
    cases r with
    | none => simp at hg
    | some fd =>
      simp only [Prod.mk.injEq, Option.some.injEq] at hg
      obtain ⟨e1, e2⟩ := hg
      subst e1 e2
      dsimp only
      rw [store_length, hp]; exact hv
  · simp only [Prod.mk.injEq, Option.some.injEq] at hg
    obtain ⟨e1, e2⟩ := hg
    subst e1 e2
    exact hv

theorem otp_verify_pass_calls (h : otp_h) (opt : rlm_otp_t) (reply : List Nat) (w : World) :
    getfd_calls (otp_verify_pass h opt reply w).2.2.log = getfd_calls w.log + 1 := by
  have hg := otp_getfd_calls h opt w
  unfold otp_verify_pass
  rcases hoc : otp_getfd h opt w with ⟨r, w1⟩
  rw [hoc] at hg
  dsimp only at hg
  cases r with
  | none => exact hg
  | some fdp =>
    dsimp only
    split_ifs
    · exact hg
    · have hw := (otp_write_loop_length h fdp h.sizeof_request w1.writes h.sizeof_request w1).2
      change getfd_calls (otp_write h fdp h.sizeof_request w1).2.log = _ at hw
      rcases hwr : otp_write h fdp h.sizeof_request w1 with ⟨r2, w2⟩
      rw [hwr] at hw
      dsimp only at hw
      cases r2 with
      | none => dsimp only; rw [hw, hg]
      | some rc =>
        dsimp only
        split_ifs
        · dsimp only; rw [hw, hg]
        · dsimp only; rw [hw, hg]
        · have hr := (otp_read_loop_length h fdp h.sizeof_reply w2.reads [] w2).2
          change getfd_calls (otp_read h fdp h.sizeof_reply w2).2.2.log = _ at hr
          rcases hrd : otp_read h fdp h.sizeof_reply w2 with ⟨r3, buf, w3⟩
          rw [hrd] at hr
          dsimp only at hr
          cases r3 with
          | none => dsimp only; rw [hr, hw, hg]
          | some rc2 =>
            dsimp only
            split_ifs <;> dsimp only <;> (try rw [otp_putfd_calls]) <;> rw [hr, hw, hg]

theorem otp_verify_retry_calls (h : otp_h) (opt : rlm_otp_t) (t : Nat) :
    ∀ (reply : List Nat) (w : World),
      getfd_calls (otp_verify_retry h opt t reply w).2.2.log ≤ getfd_calls w.log + t := by
  induction t with
  | zero => intro reply w; unfold otp_verify_retry; simp
  | succ t ih =>
    intro reply w
    have hp := otp_verify_pass_calls h opt reply w
    unfold otp_verify_retry
    rcases hps : otp_verify_pass h opt reply w with ⟨r, buf, w1⟩
    rw [hps] at hp
    dsimp only at hp
    cases r with
    | none => dsimp only; omega
    | some p =>
      cases p with
      | ret rc => dsimp only; omega
      | retry =>
        dsimp only
        have := ih buf w1
        omega

theorem otp_verify_pass_retry_iff (h : otp_h) (opt : rlm_otp_t) (reply : List Nat) (w : World)
    (b1 : List Nat) (w1 : World) :
    otp_verify_pass h opt reply w = (some Pass.retry, b1, w1) ↔
      ∃ fdp wg, otp_getfd h opt w = (some fdp, wg) ∧ fd_of wg.otp_fd_head fdp ≠ -1 ∧
        ((otp_write h fdp h.sizeof_request wg = (some 0, w1) ∧ h.sizeof_request ≠ 0 ∧
            b1 = reply) ∨
          (∃ ww, otp_write h fdp h.sizeof_request wg = (some (h.sizeof_request : Int), ww) ∧
            otp_read h fdp h.sizeof_reply ww = (some 0, b1, w1) ∧ h.sizeof_reply ≠ 0)) := by
  constructor
  · intro e
    unfold otp_verify_pass at e
    rcases hoc : otp_getfd h opt w with ⟨r, wg⟩
    rw [hoc] at e
    cases r with
    | none => simp at e
    | some fdp =>
      dsimp only at e
      by_cases hfd : fd_of wg.otp_fd_head fdp = -1
      · rw [if_pos hfd] at e; simp at e
      · rw [if_neg hfd] at e
        rcases hwr : otp_write h fdp h.sizeof_request wg with ⟨r2, w2⟩
        rw [hwr] at e
        cases r2 with
        | none => simp at e
        | some rc =>
          dsimp only at e
          by_cases hrc : rc = (h.sizeof_request : Int)
          · rw [if_neg (not_not.mpr hrc)] at e
            rcases hrd : otp_read h fdp h.sizeof_reply w2 with ⟨r3, buf, w3⟩
            rw [hrd] at e
            cases r3 with
            | none => simp at e
            | some rc2 =>
              dsimp only at e
              by_cases hrc2 : rc2 = (h.sizeof_reply : Int)
              · rw [if_neg (not_not.mpr hrc2)] at e
                split_ifs at e <;> simp at e
              · rw [if_pos hrc2] at e
                by_cases hz : rc2 = 0
                · rw [if_pos hz] at e
                  simp only [Prod.mk.injEq, true_and] at e
                  obtain ⟨rfl, rfl⟩ := e
                  subst hz hrc
                  refine ⟨fdp, wg, rfl, hfd, Or.inr ⟨w2, hwr, hrd, ?_⟩⟩
                  intro hz; apply hrc2; simp [hz]
                · rw [if_neg hz] at e; simp at e
          · rw [if_pos hrc] at e
            by_cases hz : rc = 0
            · rw [if_pos hz] at e
              simp only [Prod.mk.injEq, true_and] at e
              obtain ⟨rfl, rfl⟩ := e
              subst hz
              refine ⟨fdp, wg, rfl, hfd, Or.inl ⟨hwr, ?_, rfl⟩⟩
              intro hz; apply hrc; simp [hz]
            · rw [if_neg hz] at e; simp at e
  · rintro ⟨fdp, wg, hg, hfd, (⟨hwr, hne, rfl⟩ | ⟨ww, hwr, hrd, hne⟩)⟩
    · unfold otp_verify_pass
      rw [hg]
      dsimp only
      rw [if_neg hfd, hwr]
      dsimp only
      have : (0 : Int) ≠ (h.sizeof_request : Int) := by
        intro e; apply hne; exact_mod_cast e.symm
      rw [if_pos this, if_pos rfl]
    · unfold otp_verify_pass
      rw [hg]
      dsimp only
      rw [if_neg hfd, hwr]
      dsimp only
      rw [if_neg (not_not.mpr rfl), hrd]
      dsimp only
      have : (0 : Int) ≠ (h.sizeof_reply : Int) := by
        intro e; apply hne; exact_mod_cast e.symm
      rw [if_pos this, if_pos rfl]

/-! ## Lemmas: the reply check -/

theorem walk_fd (rp : String) (pool : List otp_fd_t) (p : Nat) :
    (deref (otp_getfd_walk rp pool).1 p).map (fun c => c.fd) =
      (deref pool p).map (fun c => c.fd) := by
  induction pool with
  | nil => rfl
  | cons c rest ih =>
    unfold otp_getfd_walk
    split_ifs
    · simp only [List.cons_eq_cons]
      unfold deref
      rw [walk_length]
      split_ifs
      · rfl
      · exact ih
    · unfold deref
      split_ifs <;> rfl
    · unfold deref
      rw [walk_length]
      split_ifs
      · rfl
      · exact ih

theorem acquire_fd (opt : rlm_otp_t) (w : World) (p : Nat) (hp : p < w.otp_fd_head.length) :
    fd_of (otp_getfd_acquire opt w).2.otp_fd_head p = fd_of w.otp_fd_head p := by
  have hwf := walk_fd opt.otpd_rp w.otp_fd_head p
  have hwl := walk_length opt.otpd_rp w.otp_fd_head
  obtain ⟨c, hc⟩ := deref_isSome w.otp_fd_head p hp
  rw [hc] at hwf
  have key : ∀ l : List otp_fd_t, Option.map (fun c => c.fd) (deref l p) = some c.fd →
      fd_of l p = c.fd := by
    intro l hl
    unfold fd_of
    cases hd : deref l p with
    | none => rw [hd] at hl; simp at hl
    | some d => rw [hd] at hl; simpa using hl
  have hr : fd_of w.otp_fd_head p = c.fd := by unfold fd_of; rw [hc]
  rw [hr]
  unfold otp_getfd_acquire
  dsimp only
  split
  · exact key _ hwf
  · dsimp only
    apply key
    unfold deref
    rw [if_neg (by rw [hwl]; omega)]
    exact hwf

theorem otp_verify_pass_invalid (h : otp_h) (opt : rlm_otp_t) (r : List Nat) (w : World)
    (fdp : Nat) (buf : List Nat) (w3 : World) (hrecv : Received h opt w fdp buf w3)
    (hinv : reply_invalid h buf) :
    otp_verify_pass h opt r w = (some (Pass.ret (-1)), buf, otp_putfd fdp true w3) := by
  obtain ⟨w1, w2, hg, hfd, hwr, hrd⟩ := hrecv
  unfold otp_verify_pass
  rw [hg]
  dsimp only
  rw [if_neg hfd, hwr]
  dsimp only
  rw [if_neg (not_not.mpr rfl), hrd]
  dsimp only
  rw [if_neg (not_not.mpr rfl)]
  by_cases hv : (h.reply_view buf).version ≠ 1
  · rw [if_pos hv]
  · rw [if_neg hv]
    rcases hinv with hv2 | hp
    · exact absurd hv2 hv
    · rw [if_pos (hp _ (le_refl _))]

theorem Received_valid (h : otp_h) (opt : rlm_otp_t) (w : World)
    (fdp : Nat) (buf : List Nat) (w3 : World) (hrecv : Received h opt w fdp buf w3) :
    fdp < w3.otp_fd_head.length := by
  obtain ⟨w1, w2, hg, _, hwr, hrd⟩ := hrecv
  have h1 := otp_getfd_valid h opt w w1 fdp hg
  have h2 := (otp_write_loop_length h fdp h.sizeof_request w1.writes h.sizeof_request w1).1
  change (otp_write h fdp h.sizeof_request w1).2.otp_fd_head.length = _ at h2
  rw [hwr] at h2
  have h3 := (otp_read_loop_length h fdp h.sizeof_reply w2.reads [] w2).1
  change (otp_read h fdp h.sizeof_reply w2).2.2.otp_fd_head.length = _ at h3
  rw [hrd] at h3
  dsimp only at h2 h3
  omega

theorem otp_getfd_reconnects (h : otp_h) (opt : rlm_otp_t) (w wn : World) (fdp : Nat)
    (hp : fdp < w.otp_fd_head.length) (hclosed : fd_of w.otp_fd_head fdp = -1)
    (hg : otp_getfd h opt w = (some fdp, wn)) :
    ∃ fd wc,
      otp_connect h (path_of (otp_getfd_acquire opt w).2.otp_fd_head fdp)
        (otp_getfd_acquire opt w).2 = (some fd, wc) ∧
      fd_of wn.otp_fd_head fdp = fd := by
  have hv := acquire_valid opt w
  have hf := acquire_fd opt w fdp hp
  have hcp := otp_connect_pool h
    (path_of (otp_getfd_acquire opt w).2.otp_fd_head (otp_getfd_acquire opt w).1)
    (otp_getfd_acquire opt w).2
  unfold otp_getfd at hg
  dsimp only at hg
  generalize otp_getfd_acquire opt w = a at hv hf hcp hg ⊢
  split_ifs at hg with hfd
  · rcases hoc : otp_connect h (path_of a.2.otp_fd_head a.1) a.2 with ⟨r, wc⟩
    rw [hoc] at hg hcp
    dsimp only at hcp
    cases r with
    | none => simp at hg
    | some fd =>
      simp only [Prod.mk.injEq, Option.some.injEq] at hg
      obtain ⟨e1, e2⟩ := hg
      subst e1
      refine ⟨fd, wc, hoc, ?_⟩
      subst e2
      dsimp only
      obtain ⟨c, hc⟩ := deref_isSome wc.otp_fd_head a.1 (by rw [hcp]; exact hv)
      unfold fd_of
      rw [deref_store, if_pos rfl, hc]
      rfl
  · simp only [Prod.mk.injEq, Option.some.injEq] at hg
    obtain ⟨e1, _⟩ := hg
    subst e1
    rw [hf] at hfd
    exact absurd hclosed hfd


/-! ## Lemmas: hard errors of the transport -/

theorem io_on_nil (fdp : Nat) : io_on fdp [] := by
  intro ev hev; simp at hev

theorem io_on_append (fdp : Nat) (a b : List Event) (ha : io_on fdp a) (hb : io_on fdp b) :
    io_on fdp (a ++ b) := by
  intro ev hev
  rcases List.mem_append.mp hev with h1 | h1
  · exact ha ev h1
  · exact hb ev h1

theorem io_on_write (fdp : Nat) (fd : Int) (off cnt : Nat) :
    io_on fdp [Event.write fdp fd off cnt] := by
  intro ev hev
  simp only [List.mem_singleton] at hev
  exact Or.inl ⟨fd, off, cnt, hev⟩

theorem io_on_read (fdp : Nat) (fd : Int) (off cnt : Nat) :
    io_on fdp [Event.read fdp fd off cnt] := by
  intro ev hev
  simp only [List.mem_singleton] at hev
  exact Or.inr ⟨fd, off, cnt, hev⟩

theorem otp_write_loop_hard (h : otp_h) (fdp len : Nat) (e : Int) (rest : List WriteRet)
    (he : e ≠ h.EINTR) (pre : List WriteRet) :
    ∀ (nleft : Nat) (w : World),
      (∀ r ∈ pre, r = WriteRet.err h.EINTR ∨ ∃ n, r = WriteRet.wrote n) →
      (pre.map WriteRet.bytes).sum < nleft →
      ∃ evs wx, otp_write_loop h fdp len (pre ++ WriteRet.err e :: rest) nleft w
          = (some e, otp_putfd fdp true wx) ∧
        wx.otp_fd_head = w.otp_fd_head ∧ wx.log = w.log ++ evs ∧ io_on fdp evs ∧
        wx.reads = w.reads := by
  induction pre with
  | nil =>
    intro nleft w _ hsum
    simp only [List.map_nil, List.sum_nil] at hsum
    simp only [List.nil_append]
    unfold otp_write_loop
    rw [if_neg (by omega)]
    dsimp only
    rw [if_neg he]
    exact ⟨_, _, rfl, rfl, rfl, io_on_write _ _ _ _, rfl⟩
  | cons r pre ih =>
    intro nleft w hall hsum
    have hall2 : ∀ r ∈ pre, r = WriteRet.err h.EINTR ∨ ∃ n, r = WriteRet.wrote n :=
      fun x hx => hall x (List.mem_cons_of_mem _ hx)
    simp only [List.map_cons, List.sum_cons] at hsum
    simp only [List.cons_append]
    unfold otp_write_loop
    rw [if_neg (by omega)]
    dsimp only
    rcases hall r (List.mem_cons_self _ _) with hr | ⟨n, hr⟩
    · subst hr
      dsimp only
      rw [if_pos rfl]
      simp only [WriteRet.bytes, zero_add] at hsum
      obtain ⟨evs, wx, h1, h2, h3, h4, h5⟩ := ih nleft { w with
        writes := pre ++ WriteRet.err e :: rest
        log := w.log ++ [Event.write fdp (fd_of w.otp_fd_head fdp) (len - nleft) nleft] }
        hall2 hsum
      refine ⟨Event.write fdp (fd_of w.otp_fd_head fdp) (len - nleft) nleft :: evs, wx, h1, h2,
        ?_, ?_, h5⟩
      · rw [h3]; simp
      · exact io_on_append fdp [_] evs (io_on_write _ _ _ _) h4
    · subst hr
      dsimp only
      simp only [WriteRet.bytes] at hsum
      obtain ⟨evs, wx, h1, h2, h3, h4, h5⟩ := ih (nleft - min n nleft) { w with
        writes := pre ++ WriteRet.err e :: rest
        log := w.log ++ [Event.write fdp (fd_of w.otp_fd_head fdp) (len - nleft) nleft] }
        hall2 (by omega)
      refine ⟨Event.write fdp (fd_of w.otp_fd_head fdp) (len - nleft) nleft :: evs, wx, h1, h2,
        ?_, ?_, h5⟩
      · rw [h3]; simp
      · exact io_on_append fdp [_] evs (io_on_write _ _ _ _) h4

theorem fd_of_putfd_drop (fdp : Nat) (w : World) :
    fd_of (otp_putfd fdp true w).otp_fd_head fdp = -1 := by
  unfold fd_of otp_putfd
  simp only [if_true, deref_store]
  cases deref w.otp_fd_head fdp <;> rfl

theorem otp_read_loop_hard (h : otp_h) (fdp len : Nat) (e : Int) (rest : List ReadRet)
    (he : e ≠ h.EINTR) (pre : List ReadRet) :
    ∀ (buf : List Nat) (w : World),
      (∀ r ∈ pre, r = ReadRet.err h.EINTR ∨ ∃ b, r = ReadRet.data b ∧ b ≠ []) →
      (pre.map ReadRet.bytes).sum + buf.length < len →
      ∃ evs wx got, otp_read_loop h fdp len (pre ++ ReadRet.err e :: rest) buf w
          = (some (-1), got, otp_putfd fdp true wx) ∧
        wx.otp_fd_head = w.otp_fd_head ∧ wx.log = w.log ++ evs ∧ io_on fdp evs := by
  induction pre with
  | nil =>
    intro buf w _ hsum
    simp only [List.map_nil, List.sum_nil, zero_add] at hsum
    simp only [List.nil_append]
    unfold otp_read_loop
    rw [if_pos hsum]
    dsimp only
    rw [if_neg he]
    exact ⟨_, _, _, rfl, rfl, rfl, io_on_read _ _ _ _⟩
  | cons r pre ih =>
    intro buf w hall hsum
    have hall2 : ∀ r ∈ pre, r = ReadRet.err h.EINTR ∨ ∃ b, r = ReadRet.data b ∧ b ≠ [] :=
      fun x hx => hall x (List.mem_cons_of_mem _ hx)
    simp only [List.map_cons, List.sum_cons] at hsum
    simp only [List.cons_append]
    unfold otp_read_loop
    rw [if_pos (by omega)]
    dsimp only
    rcases hall r (List.mem_cons_self _ _) with hr | ⟨b, hr, hb⟩
    · subst hr
      dsimp only
      rw [if_pos rfl]
      simp only [ReadRet.bytes, zero_add] at hsum
      obtain ⟨evs, wx, got, h1, h2, h3, h4⟩ := ih buf { w with
        reads := pre ++ ReadRet.err e :: rest
        log := w.log ++
          [Event.read fdp (fd_of w.otp_fd_head fdp) buf.length (len - buf.length)] }
        hall2 hsum
      refine ⟨Event.read fdp (fd_of w.otp_fd_head fdp) buf.length (len - buf.length) :: evs,
        wx, got, h1, h2, ?_, ?_⟩
      · rw [h3]; simp
      · exact io_on_append fdp [_] evs (io_on_read _ _ _ _) h4
    · subst hr
      dsimp only
      simp only [ReadRet.bytes] at hsum
      have hlen : 0 < b.length := List.length_pos.mpr hb
      have htake : b.take (len - buf.length) = b := List.take_of_length_le (by omega)
      rw [htake, if_neg (by omega)]
      obtain ⟨evs, wx, got, h1, h2, h3, h4⟩ := ih (buf ++ b) { w with
        reads := pre ++ ReadRet.err e :: rest
        log := w.log ++
          [Event.read fdp (fd_of w.otp_fd_head fdp) buf.length (len - buf.length)] }
        hall2 (by simp only [List.length_append]; omega)
      refine ⟨Event.read fdp (fd_of w.otp_fd_head fdp) buf.length (len - buf.length) :: evs,
        wx, got, h1, h2, ?_, ?_⟩
      · rw [h3]; simp
      · exact io_on_append fdp [_] evs (io_on_read _ _ _ _) h4

theorem otp_write_loop_open (h : otp_h) (fdp len : Nat) (script : List WriteRet) :
    ∀ (nleft : Nat) (w : World) (v : Int) (w2 : World),
      otp_write_loop h fdp len script nleft w = (some v, w2) →
      fd_of w2.otp_fd_head fdp ≠ -1 →
      ∃ evs, w2.log = w.log ++ evs ∧ io_on fdp evs ∧ w2.otp_fd_head = w.otp_fd_head := by
  induction script with
  | nil =>
    intro nleft w v w2 hr _
    unfold otp_write_loop at hr
    split_ifs at hr
    · simp only [Prod.mk.injEq] at hr
      obtain ⟨_, rfl⟩ := hr
      exact ⟨[], by simp, io_on_nil fdp, rfl⟩
    · simp at hr
  | cons r rest ih =>
    intro nleft w v w2 hr hopen
    unfold otp_write_loop at hr
    split_ifs at hr
    · simp only [Prod.mk.injEq] at hr
      obtain ⟨_, rfl⟩ := hr
      exact ⟨[], by simp, io_on_nil fdp, rfl⟩
    · dsimp only at hr
      cases r with
      | wrote n =>
        dsimp only at hr
        obtain ⟨evs, h1, h2, h3⟩ := ih _ _ v w2 hr hopen
        refine ⟨Event.write fdp (fd_of w.otp_fd_head fdp) (len - nleft) nleft :: evs,
          ?_, ?_, h3⟩
        · rw [h1]; simp
        · exact io_on_append fdp [_] evs (io_on_write _ _ _ _) h2
      | err e =>
        dsimp only at hr
        split_ifs at hr
        · obtain ⟨evs, h1, h2, h3⟩ := ih _ _ v w2 hr hopen
          refine ⟨Event.write fdp (fd_of w.otp_fd_head fdp) (len - nleft) nleft :: evs,
            ?_, ?_, h3⟩
          · rw [h1]; simp
          · exact io_on_append fdp [_] evs (io_on_write _ _ _ _) h2
        · simp only [Prod.mk.injEq] at hr
          obtain ⟨_, rfl⟩ := hr
          exact absurd (fd_of_putfd_drop fdp _) hopen

theorem otp_verify_of_pass_ret (h : otp_h) (opt : rlm_otp_t) (r : List Nat) (w : World)
    (rc : Int) (buf : List Nat) (wz : World)
    (hp : otp_verify_pass h opt r w = (some (Pass.ret rc), buf, wz)) :
    otp_verify h opt r w = (some rc, buf, wz) ∧
    (∀ r0 w0, otp_verify_pass h opt r0 w0 = (some Pass.retry, r, w) →
      otp_verify h opt r0 w0 = (some rc, buf, wz)) := by
  constructor
  · unfold otp_verify
    rw [otp_verify_retry, hp]
  · intro r0 w0 h0
    unfold otp_verify
    rw [otp_verify_retry, h0]
    dsimp only
    rw [otp_verify_retry, hp]


/-! ## The claims -/

/-- C1 (fails on the code). With an empty pool and a daemon that is not listening,
`otp_verify` returns -1 and the connection it obtained from `otp_getfd` is left with its
mutex held: `otp_putfd` is never called on the exit path taken when the handle is still -1
after the connect attempt. -/
theorem otp_verify_connect_failure_keeps_mutex :
    otp_verify hdr opt0 [] world_daemon_down =
      (some (-1), [],
        { otp_fd_head := [{ path := "/var/run/otpd/socket", fd := -1, mutex := true }]
          sockets := []
          connects := []
          writes := []
          reads := []
          log := [Event.getfd_call, Event.connect "/var/run/otpd/socket" (-1),
            Event.getfd_ret 0] }) := by
  decide

/-- C2 (fails on the code). A disconnect during send does not lead to a second attempt.
When the first `write` of the request returns 0, `otp_write` writes on, and `otp_verify`
returns the status of the daemon after a single call of `otp_getfd`; when no further
`write` returns, `otp_verify` does not return; and when the closed peer shows as EPIPE,
`otp_verify` returns -1 after a single call of `otp_getfd`, although a second connection
would have been served. -/
theorem otp_verify_no_retry_on_send_disconnect :
    otp_verify hdr opt0 [] world_zero_write_in_send =
      (some 0, reply_ok,
        { otp_fd_head := [{ path := "/var/run/otpd/socket", fd := 5, mutex := false }]
          sockets := [6]
          connects := [0]
          writes := [WriteRet.wrote 168]
          reads := [ReadRet.data reply_ok]
          log := [Event.getfd_call, Event.connect "/var/run/otpd/socket" 5, Event.getfd_ret 0,
            Event.write 0 5 0 168, Event.write 0 5 0 168, Event.read 0 5 0 56,
            Event.putfd 0 false] }) ∧
    getfd_calls (otp_verify hdr opt0 [] world_zero_write_in_send).2.2.log = 1 ∧
    (otp_verify hdr opt0 []
      { world_zero_write_in_send with writes := [WriteRet.wrote 0] }).1 = none ∧
    (otp_verify hdr opt0 [] world_epipe_in_send).1 = some (-1) ∧
    getfd_calls (otp_verify hdr opt0 [] world_epipe_in_send).2.2.log = 1 := by
  decide

/-- The bound on the attempts and the retry after the disconnect indication.  `otp_verify`
calls `otp_getfd` at most twice.  When the first pass through its body ends in `goto retry`,
which happens exactly when `otp_write` or `otp_read` returned 0, there is exactly one
further pass, started by a second call of `otp_getfd`, and `otp_verify` returns what that
pass returns; when the second pass ends in `goto retry` as well, `otp_verify` returns -1 and
there is no third pass. -/
theorem otp_verify_two_attempts (h : otp_h) (opt : rlm_otp_t) (reply : List Nat) (w : World) :
    getfd_calls (otp_verify h opt reply w).2.2.log ≤ getfd_calls w.log + 2 ∧
    (∀ b1 w1, otp_verify_pass h opt reply w = (some Pass.retry, b1, w1) →
      getfd_calls (otp_verify h opt reply w).2.2.log = getfd_calls w.log + 2 ∧
      (∀ rc b2 w2, otp_verify_pass h opt b1 w1 = (some (Pass.ret rc), b2, w2) →
        otp_verify h opt reply w = (some rc, b2, w2)) ∧
      (∀ b2 w2, otp_verify_pass h opt b1 w1 = (none, b2, w2) →
        otp_verify h opt reply w = (none, b2, w2)) ∧
      (∀ b2 w2, otp_verify_pass h opt b1 w1 = (some Pass.retry, b2, w2) →
        otp_verify h opt reply w = (some (-1), b2, w2))) ∧
    (∀ b1 w1, otp_verify_pass h opt reply w = (some Pass.retry, b1, w1) ↔
      ∃ fdp wg, otp_getfd h opt w = (some fdp, wg) ∧ fd_of wg.otp_fd_head fdp ≠ -1 ∧
        ((otp_write h fdp h.sizeof_request wg = (some 0, w1) ∧ h.sizeof_request ≠ 0 ∧
            b1 = reply) ∨
          (∃ ww, otp_write h fdp h.sizeof_request wg = (some (h.sizeof_request : Int), ww) ∧
            otp_read h fdp h.sizeof_reply ww = (some 0, b1, w1) ∧ h.sizeof_reply ≠ 0))) := by
  refine ⟨otp_verify_retry_calls h opt 2 reply w, ?_, otp_verify_pass_retry_iff h opt reply w⟩
  intro b1 w1 hp
  have hc1 := otp_verify_pass_calls h opt reply w
  have hc2 := otp_verify_pass_calls h opt b1 w1
  rw [hp] at hc1
  dsimp only at hc1
  have hv : otp_verify h opt reply w = otp_verify_retry h opt 1 b1 w1 := by
    unfold otp_verify
    rw [otp_verify_retry, hp]
  rw [hv]
  unfold otp_verify_retry
  rcases hps : otp_verify_pass h opt b1 w1 with ⟨r, b2, w2⟩
  rw [hps] at hc2
  dsimp only at hc2
  cases r with
  | none =>
    dsimp only
    refine ⟨by omega, ?_, ?_, ?_⟩
    · intro rc b w e; simp at e
    · intro b w e
      simp only [Prod.mk.injEq, true_and] at e
      obtain ⟨rfl, rfl⟩ := e; rfl
    · intro b w e; simp at e
  | some p =>
    cases p with
    | ret rc =>
      dsimp only
      refine ⟨by omega, ?_, ?_, ?_⟩
      · intro rc b w e
        simp only [Prod.mk.injEq, Option.some.injEq, Pass.ret.injEq] at e
        obtain ⟨rfl, rfl, rfl⟩ := e; rfl
      · intro b w e; simp at e
      · intro b w e; simp at e
    | retry =>
      dsimp only
      unfold otp_verify_retry
      refine ⟨by dsimp only; omega, ?_, ?_, ?_⟩
      · intro rc b w e; simp at e
      · intro b w e; simp at e
      · intro b w e
        simp only [Prod.mk.injEq, true_and] at e
        obtain ⟨rfl, rfl⟩ := e; rfl

/-- An instance: the daemon hangs up on the first two connections and would answer on the
third; `otp_verify` returns -1 and the third reply is still unread. -/
theorem otp_verify_two_attempts_witness :
    otp_verify hdr opt0 [] world_two_hangups =
      (some (-1), [],
        { otp_fd_head := [{ path := "/var/run/otpd/socket", fd := -1, mutex := false }]
          sockets := [7]
          connects := [0]
          writes := [WriteRet.wrote 168]
          reads := [ReadRet.data reply_ok]
          log := (otp_verify hdr opt0 [] world_two_hangups).2.2.log }) :=
  ((otp_verify_two_attempts hdr opt0 [] world_two_hangups).2.1
      (otp_verify_pass hdr opt0 [] world_two_hangups).2.1
      (otp_verify_pass hdr opt0 [] world_two_hangups).2.2 (by decide)).2.2.2 [] _ (by decide)

/-- C3. When a reply frame was received in full and its version is not 1 or its passcode
field has no NUL among its `OTP_MAX_PASSCODE_LEN + 1` bytes, `otp_verify` returns -1, in the
first pass and in the second alike; the last thing it does is `otp_putfd(fdp, 1)`, after
which the connection has fd = -1 and a free mutex, and a later `otp_getfd` that returns this
connection has gone through `otp_connect` for its handle. -/
theorem otp_verify_rejects_invalid_reply (h : otp_h) (opt : rlm_otp_t) (r : List Nat)
    (w : World) (fdp : Nat) (buf : List Nat) (w3 : World)
    (hrecv : Received h opt w fdp buf w3) (hinv : reply_invalid h buf) :
    otp_verify h opt r w = (some (-1), buf, otp_putfd fdp true w3) ∧
    (∀ r0 w0, otp_verify_pass h opt r0 w0 = (some Pass.retry, r, w) →
      otp_verify h opt r0 w0 = (some (-1), buf, otp_putfd fdp true w3)) ∧
    (otp_putfd fdp true w3).log = w3.log ++ [Event.putfd fdp true] ∧
    (∃ c, deref (otp_putfd fdp true w3).otp_fd_head fdp = some c ∧ c.fd = -1 ∧
      c.mutex = false) ∧
    (∀ opt2 wn, otp_getfd h opt2 (otp_putfd fdp true w3) = (some fdp, wn) →
      ∃ fd wc,
        otp_connect h
          (path_of (otp_getfd_acquire opt2 (otp_putfd fdp true w3)).2.otp_fd_head fdp)
          (otp_getfd_acquire opt2 (otp_putfd fdp true w3)).2 = (some fd, wc) ∧
        fd_of wn.otp_fd_head fdp = fd) := by
  have hpass := fun r => otp_verify_pass_invalid h opt r w fdp buf w3 hrecv hinv
  have hval := Received_valid h opt w fdp buf w3 hrecv
  obtain ⟨c, hc, hc1, hc2⟩ := otp_putfd_drop fdp w3 hval
  refine ⟨?_, ?_, rfl, ⟨c, hc, hc1, hc2⟩, ?_⟩
  · unfold otp_verify
    rw [otp_verify_retry, hpass]
  · intro r0 w0 h0
    unfold otp_verify
    rw [otp_verify_retry, h0]
    dsimp only
    rw [otp_verify_retry, hpass]
  · intro opt2 wn hg
    refine otp_getfd_reconnects h opt2 _ wn fdp ?_ ?_ hg
    · rw [otp_putfd_length]; exact hval
    · unfold fd_of; rw [hc]; exact hc1

/-- An instance: the daemon answers with a version 3 reply. -/
theorem otp_verify_rejects_invalid_reply_witness :
    otp_verify hdr opt0 [] world_bad_version =
      (some (-1), reply_v3,
        otp_putfd 0 true (otp_read hdr 0 56 (otp_write hdr 0 168
          (otp_getfd hdr opt0 world_bad_version).2).2).2.2) :=
  (otp_verify_rejects_invalid_reply hdr opt0 [] world_bad_version 0 reply_v3 _
    ⟨(otp_getfd hdr opt0 world_bad_version).2,
      (otp_write hdr 0 168 (otp_getfd hdr opt0 world_bad_version).2).2,
      by decide, by decide, by decide, by decide⟩ (Or.inl (by decide))).1

/-- C4. `otprc2rlmrc` follows the status-to-verdict table on every integer: ok gives
`RLM_MODULE_OK`; user-unknown, auth-info-unavailable, auth-error and invalid-pin give
`RLM_MODULE_REJECT`; max-tries and next-passcode give `RLM_MODULE_USERLOCK`; service-error,
the system-failure value -1 and every integer that is no status code give `RLM_MODULE_FAIL`.
The result is `RLM_MODULE_OK` if and only if the input is the ok code. -/
theorem otprc2rlmrc_table (h : otp_h) (hwf : h.rc_wf) (rc : Int) :
    (rc = h.OTP_RC_OK → otprc2rlmrc h rc = RLM_MODULE_OK) ∧
    (rc ∈ [h.OTP_RC_USER_UNKNOWN, h.OTP_RC_AUTHINFO_UNAVAIL, h.OTP_RC_AUTH_ERR, h.OTP_RC_IPIN] →
      otprc2rlmrc h rc = RLM_MODULE_REJECT) ∧
    (rc ∈ [h.OTP_RC_MAXTRIES, h.OTP_RC_NEXTPASSCODE] → otprc2rlmrc h rc = RLM_MODULE_USERLOCK) ∧
    (rc = h.OTP_RC_SERVICE_ERR ∨ rc = -1 ∨ rc ∉ h.rc_codes → otprc2rlmrc h rc = RLM_MODULE_FAIL) ∧
    (otprc2rlmrc h rc = RLM_MODULE_OK ↔ rc = h.OTP_RC_OK) := by
  obtain ⟨hd, hm⟩ := hwf
  simp only [otp_h.rc_codes, List.nodup_cons, List.mem_cons, List.mem_singleton, not_or,
    List.not_mem_nil, List.nodup_nil, not_false_eq_true, and_true] at hd hm
  obtain ⟨⟨a1, a2, a3, a4, a5, a6, a7⟩, ⟨b2, b3, b4, b5, b6, b7⟩, ⟨c3, c4, c5, c6, c7⟩,
    ⟨d4, d5, d6, d7⟩, ⟨e5, e6, e7⟩, ⟨f6, f7⟩, g7⟩ := hd
  obtain ⟨m0, m1, m2, m3, m4, m5, m6, m7⟩ := hm
  simp only [otp_h.rc_codes, List.mem_cons, List.mem_singleton, List.not_mem_nil, or_false, not_or]
  unfold otprc2rlmrc
  refine ⟨?_, ?_, ?_, ?_, ?_⟩
  · intro e; simp [e]
  · rintro (e | e | e | e) <;> subst e <;>
      simp [Ne.symm a1, Ne.symm a2, Ne.symm a3, Ne.symm a4, Ne.symm a5, Ne.symm a6, Ne.symm a7,
        Ne.symm b2, Ne.symm b3, Ne.symm b4, Ne.symm b5, Ne.symm b6, Ne.symm b7,
        Ne.symm c3, Ne.symm c4, Ne.symm c5, Ne.symm c6, Ne.symm c7,
        Ne.symm d4, Ne.symm d5, Ne.symm d6, Ne.symm d7,
        Ne.symm e5, Ne.symm e6, Ne.symm e7, Ne.symm f6, Ne.symm f7, Ne.symm g7]
  · rintro (e | e) <;> subst e <;>
      simp [Ne.symm a1, Ne.symm a2, Ne.symm a3, Ne.symm a4, Ne.symm a5, Ne.symm a6, Ne.symm a7,
        Ne.symm b2, Ne.symm b3, Ne.symm b4, Ne.symm b5, Ne.symm b6, Ne.symm b7,
        Ne.symm c3, Ne.symm c4, Ne.symm c5, Ne.symm c6, Ne.symm c7,
        Ne.symm d4, Ne.symm d5, Ne.symm d6, Ne.symm d7,
        Ne.symm e5, Ne.symm e6, Ne.symm e7, Ne.symm f6, Ne.symm f7, Ne.symm g7]
  · rintro (e | e | ⟨n0, n1, n2, n3, n4, n5, n6, n7⟩)
    · subst e
      simp [Ne.symm a7, Ne.symm b7, Ne.symm c7, Ne.symm d7, Ne.symm e7, Ne.symm f7, Ne.symm g7]
    · subst e
      simp [m0, m1, m2, m3, m4, m5, m6, m7]
    · simp [n0, n1, n2, n3, n4, n5, n6, n7]
  · constructor
    · intro e
      by_contra hne
      rw [if_neg hne] at e
      split_ifs at e
    · intro e; simp [e]

/-- An instance: with the codes of `hdr`, max-tries (4) gives `RLM_MODULE_USERLOCK`. -/
theorem otprc2rlmrc_table_witness :
    hdr.rc_wf ∧ otprc2rlmrc hdr 4 = RLM_MODULE_USERLOCK :=
  ⟨by decide, (otprc2rlmrc_table hdr (by decide) 4).2.2.1 (by decide)⟩

/-- C5 (as stated, fails). A CHAP request whose challenge attribute has 17 bytes, more than
the 16 the frame holds, is answered with `RLM_MODULE_INVALID`, not `RLM_MODULE_REJECT`. -/
theorem otp_pw_valid_chap_long_invalid :
    otp_pw_valid hdr request_chap_long hdr.PWE_CHAP [] opt0 World.empty
        = (some RLM_MODULE_INVALID, none, World.empty) ∧
      (otp_pw_valid hdr request_chap_long hdr.PWE_CHAP [] opt0 World.empty).1
        ≠ some RLM_MODULE_REJECT := by
  decide

/-- C5 (amended). A field over its capacity ends `otp_pw_valid` without any I/O (the world
is returned as it was, no passcode is filled in).  The verdict is `RLM_MODULE_REJECT` when the
user name or the challenge text is too long, and when the PAP passcode is; it is
`RLM_MODULE_INVALID` when user name and challenge text fit, both attributes are present and
the challenge or response bytes of CHAP, MS-CHAP or MS-CHAP2 exceed 16 or 50 bytes. -/
theorem otp_pw_valid_over_capacity (h : otp_h) (hwf : h.pwe_wf) (request : REQUEST) (pwe : Int)
    (challenge : List Nat) (opt : rlm_otp_t) (w : World) :
    ((strlen request.username.vp_octets > h.OTP_MAX_USERNAME_LEN ∨
        strlen challenge > h.OTP_MAX_CHALLENGE_LEN) →
      otp_pw_valid h request pwe challenge opt w = (some RLM_MODULE_REJECT, none, w)) ∧
    (∀ rvp, pwe = h.PWE_PAP → request.find_pwattr pwe = some rvp →
      strlen rvp.vp_octets > h.OTP_MAX_PASSCODE_LEN →
      otp_pw_valid h request pwe challenge opt w = (some RLM_MODULE_REJECT, none, w)) ∧
    (∀ cvp rvp, pwe = h.PWE_CHAP ∨ pwe = h.PWE_MSCHAP ∨ pwe = h.PWE_MSCHAP2 →
      strlen request.username.vp_octets ≤ h.OTP_MAX_USERNAME_LEN →
      strlen challenge ≤ h.OTP_MAX_CHALLENGE_LEN →
      request.find_pwattr (pwe - 1) = some cvp → request.find_pwattr pwe = some rvp →
      cvp.vp_length > 16 ∨ rvp.vp_length > 50 →
      otp_pw_valid h request pwe challenge opt w = (some RLM_MODULE_INVALID, none, w)) := by
  obtain ⟨hwf, hidx⟩ := hwf
  have i1 := hidx h.PWE_PAP (by simp)
  have i2 := hidx h.PWE_CHAP (by simp)
  have i3 := hidx h.PWE_MSCHAP (by simp)
  have i4 := hidx h.PWE_MSCHAP2 (by simp)
  simp only [otp_h.pwe_codes, List.nodup_cons, List.mem_cons, List.mem_singleton,
    not_or, List.not_mem_nil, List.nodup_nil, not_false_eq_true, and_true] at hwf
  obtain ⟨⟨a1, a2, a3, a4⟩, ⟨b2, b3, b4⟩, ⟨c3, c4⟩, d4⟩ := hwf
  refine ⟨?_, ?_, ?_⟩
  · intro hov
    unfold otp_pw_valid strlcpy
    dsimp only
    by_cases hu : strlen request.username.vp_octets ≥ h.OTP_MAX_USERNAME_LEN + 1
    · rw [if_pos hu]
    · rw [if_neg hu]
      have hch : strlen challenge ≥ h.OTP_MAX_CHALLENGE_LEN + 1 := by omega
      rw [if_pos hch]
  · intro rvp hpwe hr hlen
    subst hpwe
    unfold otp_pw_valid strlcpy
    dsimp only
    by_cases hu : strlen request.username.vp_octets ≥ h.OTP_MAX_USERNAME_LEN + 1
    · rw [if_pos hu]
    · rw [if_neg hu]
      by_cases hch : strlen challenge ≥ h.OTP_MAX_CHALLENGE_LEN + 1
      · rw [if_pos hch]
      · rw [if_neg hch, if_neg (by omega), hr]
        cases hc : request.find_pwattr (h.PWE_PAP - 1) with
        | none => rfl
        | some cvp =>
          dsimp only
          have hs : otp_pw_valid_switch h h.PWE_PAP cvp rvp
              = Except.error RLM_MODULE_REJECT := by
            unfold otp_pw_valid_switch strlcpy
            dsimp only
            rw [if_neg (Ne.symm a1), if_pos rfl, if_pos (by omega)]
          rw [hs]
  · intro cvp rvp hpwe hu hch hc hr hlen
    unfold otp_pw_valid strlcpy
    dsimp only
    have hleg : ¬(pwe - 1 < 0 ∨ (h.pwattr_len : Int) ≤ pwe) := by
      rcases hpwe with e | e | e <;> subst e <;> omega
    rw [if_neg (by omega), if_neg (by omega), if_neg hleg, hc, hr]
    dsimp only
    have hs : otp_pw_valid_switch h pwe cvp rvp = Except.error RLM_MODULE_INVALID := by
      unfold otp_pw_valid_switch
      rcases hpwe with e | e | e
      · subst e
        rw [if_neg (Ne.symm a2), if_neg (Ne.symm b2), if_pos rfl]
        split_ifs
        · rfl
        · rfl
        · omega
      · subst e
        rw [if_neg (Ne.symm a3), if_neg (Ne.symm b3), if_neg (Ne.symm c3), if_pos rfl]
        split_ifs
        · rfl
        · rfl
        · omega
      · subst e
        rw [if_neg (Ne.symm a4), if_neg (Ne.symm b4), if_neg (Ne.symm c4), if_neg (Ne.symm d4),
          if_pos rfl]
        split_ifs
        · rfl
        · rfl
        · omega
    rw [hs]

/-- An instance: a PAP request with a user name of 32 bytes. -/
theorem otp_pw_valid_over_capacity_witness :
    hdr.pwe_wf ∧
      otp_pw_valid hdr request_long_username hdr.PWE_PAP [] opt0 world_bad_version
        = (some RLM_MODULE_REJECT, none, world_bad_version) :=
  ⟨by decide,
    (otp_pw_valid_over_capacity hdr (by decide) request_long_username hdr.PWE_PAP [] opt0
      world_bad_version).1 (Or.inl (by decide))⟩

/-- C6 (fails on the code). A `write` that returns 0 is not taken as a disconnect: `otp_write`
calls `write` again with the same arguments, and when that call takes the frame it returns
the frame size with the connection still open and still held.  When no further `write`
returns, neither does `otp_write`. -/
theorem otp_write_zero_write_retried :
    otp_write hdr 0 168 world_zero_write =
      (some 168,
        { otp_fd_head := [{ path := "/var/run/otpd/socket", fd := 7, mutex := true }]
          sockets := []
          connects := []
          writes := []
          reads := []
          log := [Event.write 0 7 0 168, Event.write 0 7 0 168] }) ∧
    (otp_write hdr 0 168 { world_zero_write with writes := [WriteRet.wrote 0] }).1 = none := by
  decide

/-- C7 (as stated, fails). `otp_write` returns `errno` on a hard error.  When that number
equals the size of the request frame, `otp_verify` takes the write for complete: it goes on
to `otp_read` on the connection `otp_write` has already closed and released, and the failing
read releases the connection a second time.  When that number is 0, `otp_verify` takes the
error for a disconnect: the pass ends in `goto retry` and the second pass returns the status
of the daemon. -/
theorem otp_verify_errno_equal_to_frame_size :
    otp_verify hdr opt0 [] world_errno_is_frame_size =
      (some (-1), [],
        { otp_fd_head := [{ path := "/var/run/otpd/socket", fd := -1, mutex := false }]
          sockets := []
          connects := []
          writes := []
          reads := []
          log := [Event.getfd_call, Event.getfd_ret 0, Event.write 0 7 0 168,
            Event.putfd 0 true, Event.read 0 (-1) 0 56, Event.putfd 0 true] }) ∧
    otp_verify_pass hdr opt0 [] world_errno_is_zero =
      (some Pass.retry, [],
        { world_errno_is_zero with
          otp_fd_head := [{ path := "/var/run/otpd/socket", fd := -1, mutex := false }]
          writes := [WriteRet.wrote 168]
          log := [Event.getfd_call, Event.getfd_ret 0, Event.write 0 7 0 168,
            Event.putfd 0 true] }) ∧
    (otp_verify hdr opt0 [] world_errno_is_zero).1 = some 0 := by
  decide

/-- C7 (amended). Let `otp_getfd` have returned the open connection `fdp`.  When a `write`
of the request fails with an errno that is not EINTR, not 0 and not the size of the request
frame, and when, after a send that returned the frame size and left the connection open, a
`read` of the reply fails with an errno that is not EINTR, then `otp_verify` returns -1, in
the first pass and in the second alike; after the return of `otp_getfd` the log holds only
`write` and `read` calls on `fdp` followed by one `otp_putfd(fdp, 1)`, with which it ends (one
drop and release, no retry, no I/O after it), and the connection has fd = -1 and a free
mutex. -/
theorem otp_verify_hard_error (h : otp_h) (opt : rlm_otp_t) (r : List Nat) (w : World)
    (fdp : Nat) (w1 : World) (hg : otp_getfd h opt w = (some fdp, w1))
    (hfd : fd_of w1.otp_fd_head fdp ≠ -1) :
    (∀ pre e rest, w1.writes = pre ++ WriteRet.err e :: rest →
      writes_short h h.sizeof_request pre →
      e ≠ h.EINTR → e ≠ 0 → e ≠ (h.sizeof_request : Int) →
      ∃ evs wx, otp_verify h opt r w = (some (-1), r, otp_putfd fdp true wx) ∧
        (∀ r0 w0, otp_verify_pass h opt r0 w0 = (some Pass.retry, r, w) →
          otp_verify h opt r0 w0 = (some (-1), r, otp_putfd fdp true wx)) ∧
        (otp_putfd fdp true wx).log = w1.log ++ evs ++ [Event.putfd fdp true] ∧
        io_on fdp evs ∧
        (∃ c, deref (otp_putfd fdp true wx).otp_fd_head fdp = some c ∧ c.fd = -1 ∧
          c.mutex = false)) ∧
    (∀ w2 pre e rest,
      otp_write h fdp h.sizeof_request w1 = (some (h.sizeof_request : Int), w2) →
      fd_of w2.otp_fd_head fdp ≠ -1 →
      w2.reads = pre ++ ReadRet.err e :: rest →
      reads_short h h.sizeof_reply pre → e ≠ h.EINTR →
      ∃ evs wx got, otp_verify h opt r w = (some (-1), got, otp_putfd fdp true wx) ∧
        (∀ r0 w0, otp_verify_pass h opt r0 w0 = (some Pass.retry, r, w) →
          otp_verify h opt r0 w0 = (some (-1), got, otp_putfd fdp true wx)) ∧
        (otp_putfd fdp true wx).log = w1.log ++ evs ++ [Event.putfd fdp true] ∧
        io_on fdp evs ∧
        (∃ c, deref (otp_putfd fdp true wx).otp_fd_head fdp = some c ∧ c.fd = -1 ∧
          c.mutex = false)) := by
  have hval := otp_getfd_valid h opt w w1 fdp hg
  constructor
  · intro pre e rest hw hshort he h0 hsz
    obtain ⟨evs, wx, h1, h2, h3, h4, _⟩ := otp_write_loop_hard h fdp h.sizeof_request e rest he
      pre h.sizeof_request w1 hshort.1 hshort.2
    have hwr : otp_write h fdp h.sizeof_request w1 = (some e, otp_putfd fdp true wx) := by
      unfold otp_write; rw [hw]; exact h1
    have hpass : otp_verify_pass h opt r w = (some (Pass.ret (-1)), r, otp_putfd fdp true wx) := by
      unfold otp_verify_pass
      rw [hg]
      dsimp only
      rw [if_neg hfd, hwr]
      dsimp only
      rw [if_pos hsz, if_neg h0]
    obtain ⟨hv1, hv2⟩ := otp_verify_of_pass_ret h opt r w (-1) r _ hpass
    refine ⟨evs, wx, hv1, hv2, ?_, h4, otp_putfd_drop fdp wx (by rw [h2]; exact hval)⟩
    unfold otp_putfd
    dsimp only
    rw [h3]
  · intro w2 pre e rest hwr hopen hrd hshort he
    obtain ⟨evs1, g1, g2, g3⟩ := otp_write_loop_open h fdp h.sizeof_request w1.writes
      h.sizeof_request w1 _ w2 hwr hopen
    obtain ⟨evs, wx, got, h1, h2, h3, h4⟩ := otp_read_loop_hard h fdp h.sizeof_reply e rest he
      pre [] w2 hshort.1 (by simpa using hshort.2)
    have hread : otp_read h fdp h.sizeof_reply w2
        = (some (-1), got, otp_putfd fdp true wx) := by
      unfold otp_read; rw [hrd]; exact h1
    have hneg : (-1 : Int) ≠ (h.sizeof_reply : Int) := by omega
    have hpass : otp_verify_pass h opt r w
        = (some (Pass.ret (-1)), got, otp_putfd fdp true wx) := by
      unfold otp_verify_pass
      rw [hg]
      dsimp only
      rw [if_neg hfd, hwr]
      dsimp only
      rw [if_neg (not_not.mpr rfl), hread]
      dsimp only
      rw [if_pos hneg, if_neg (by decide)]
    obtain ⟨hv1, hv2⟩ := otp_verify_of_pass_ret h opt r w (-1) got _ hpass
    refine ⟨evs1 ++ evs, wx, got, hv1, hv2, ?_, io_on_append fdp evs1 evs g2 h4,
      otp_putfd_drop fdp wx (by rw [h2, g3]; exact hval)⟩
    unfold otp_putfd
    dsimp only
    rw [h3, g1]
    simp


/-- An instance: after a short write of 100 bytes, `write` fails with ECONNRESET (104). -/
theorem otp_verify_hard_error_witness :
    ∃ evs wx, otp_verify hdr opt0 [] world_connreset = (some (-1), [], otp_putfd 0 true wx) ∧
      (∀ r0 w0, otp_verify_pass hdr opt0 r0 w0 = (some Pass.retry, [], world_connreset) →
        otp_verify hdr opt0 r0 w0 = (some (-1), [], otp_putfd 0 true wx)) ∧
      (otp_putfd 0 true wx).log
        = (otp_getfd hdr opt0 world_connreset).2.log ++ evs ++ [Event.putfd 0 true] ∧
      io_on 0 evs ∧
      (∃ c, deref (otp_putfd 0 true wx).otp_fd_head 0 = some c ∧ c.fd = -1 ∧
        c.mutex = false) :=
  (otp_verify_hard_error hdr opt0 [] world_connreset 0 (otp_getfd hdr opt0 world_connreset).2
    (by decide) (by decide)).1 [WriteRet.wrote 100] 104 [] (by decide)
    ⟨fun _ hr => Or.inr ⟨100, List.mem_singleton.mp hr⟩, by decide⟩ (by decide) (by decide)
    (by decide)

/-- C9 (fails on the code). The list behind a newly inserted node is not the previous list:
with one free connection to another endpoint in the pool, `otp_getfd` returns the new node
(pointer 1) and the chain behind it holds the old node with its mutex taken. -/
theorem otp_getfd_changes_list_behind_new_node :
    (otp_getfd hdr opt0 world_other_endpoint).1 = some 1 ∧
    (otp_getfd hdr opt0 world_other_endpoint).2.otp_fd_head.head?
      = some { path := "/var/run/otpd/socket", fd := 5, mutex := true } ∧
    (otp_getfd_acquire opt0 world_other_endpoint).2.otp_fd_head.head?
      = some { path := "/var/run/otpd/socket", fd := -1, mutex := true } ∧
    (otp_getfd hdr opt0 world_other_endpoint).2.otp_fd_head.tail
      = [{ path := "/var/run/otpd2/socket", fd := 7, mutex := true }] ∧
    (otp_getfd hdr opt0 world_other_endpoint).2.otp_fd_head.tail
      ≠ world_other_endpoint.otp_fd_head := by
  decide

/-- What `otp_getfd` returns, and what it keeps.  Scanning from the head, `otp_getfd` returns
the first node whose mutex is free and whose path is the endpoint, with the mutex now held;
when there is no such node it returns a new node for the endpoint, mutex held, closed
(fd = -1) until the connect-on-demand, placed at the head of the chain, behind which every
earlier node keeps its place, path and handle.  One of the two cases always applies. -/
theorem otp_getfd_first_free_or_new (h : otp_h) (opt : rlm_otp_t) (w : World)
    (hs : w.sockets ≠ []) (hc : w.connects ≠ []) :
    (∀ pre c post, w.otp_fd_head = pre ++ c :: post →
        (∀ x ∈ pre, x.mutex = true ∨ x.path ≠ opt.otpd_rp) →
        c.mutex = false → c.path = opt.otpd_rp →
        ∃ w' fd, otp_getfd h opt w = (some post.length, w') ∧
          deref w.otp_fd_head post.length = some c ∧
          deref w'.otp_fd_head post.length =
            some { path := opt.otpd_rp, fd := fd, mutex := true } ∧
          (c.fd ≠ -1 → fd = c.fd) ∧
          w'.otp_fd_head.map (fun x => x.path) = w.otp_fd_head.map (fun x => x.path)) ∧
    ((∀ x ∈ w.otp_fd_head, x.mutex = true ∨ x.path ≠ opt.otpd_rp) →
        ∃ w' fd tl, otp_getfd h opt w = (some w.otp_fd_head.length, w') ∧
          (otp_getfd_acquire opt w).2.otp_fd_head.head? =
            some { path := opt.otpd_rp, fd := -1, mutex := true } ∧
          w'.otp_fd_head = { path := opt.otpd_rp, fd := fd, mutex := true } :: tl ∧
          tl.map (fun x => (x.path, x.fd)) = w.otp_fd_head.map (fun x => (x.path, x.fd)) ∧
          deref w'.otp_fd_head w.otp_fd_head.length =
            some { path := opt.otpd_rp, fd := fd, mutex := true }) ∧
    ((∀ x ∈ w.otp_fd_head, x.mutex = true ∨ x.path ≠ opt.otpd_rp) ∨
      ∃ pre c post, w.otp_fd_head = pre ++ c :: post ∧
        (∀ x ∈ pre, x.mutex = true ∨ x.path ≠ opt.otpd_rp) ∧
        c.mutex = false ∧ c.path = opt.otpd_rp) := by
  obtain ⟨w', hget, hopen, hclosed⟩ := otp_getfd_eq h opt w hs hc
  refine ⟨?_, ?_, first_free_split opt.otpd_rp w.otp_fd_head⟩
  · intro pre c post hw hpre hc1 hc2
    obtain ⟨ha1, ha2⟩ := acquire_found opt w pre post c hw hpre hc1 hc2
    rw [ha1] at hget hopen hclosed
    rw [ha2] at hopen hclosed
    have hd := deref_append (pre.map (fun x => { x with mutex := true })) post
      { c with mutex := true }
    have hfd : fd_of (pre.map (fun x => { x with mutex := true }) ++
        { c with mutex := true } :: post) post.length = c.fd := by
      unfold fd_of; rw [hd]
    rw [hfd] at hopen hclosed
    have hpath : (pre.map (fun x => ({ x with mutex := true } : otp_fd_t)) ++
        { c with mutex := true } :: post).map (fun x => x.path)
        = w.otp_fd_head.map (fun x => x.path) := by
      rw [hw]; simp
    by_cases hcfd : c.fd = -1
    · obtain ⟨fd, hst⟩ := hclosed hcfd
      refine ⟨w', fd, hget, ?_, ?_, fun hne => absurd hcfd hne, ?_⟩
      · rw [hw]; exact deref_append pre post c
      · rw [hst, deref_store, if_pos rfl, hd, ← hc2]; rfl
      · rw [hst, store_map_path (fun c => { c with fd := fd }) (fun _ => rfl), hpath]
    · refine ⟨w', c.fd, hget, ?_, ?_, fun _ => rfl, ?_⟩
      · rw [hw]; exact deref_append pre post c
      · rw [hopen hcfd, hd, ← hc2]
      · rw [hopen hcfd, hpath]
  · intro hall
    obtain ⟨ha1, ha2⟩ := acquire_none opt w hall
    rw [ha1] at hget hopen hclosed
    rw [ha2] at hopen hclosed
    have hd : deref (({ path := opt.otpd_rp, fd := -1, mutex := true } : otp_fd_t) ::
        w.otp_fd_head.map (fun x => { x with mutex := true })) w.otp_fd_head.length
        = some { path := opt.otpd_rp, fd := -1, mutex := true } := by
      unfold deref; simp
    have hfd : fd_of (({ path := opt.otpd_rp, fd := -1, mutex := true } : otp_fd_t) ::
        w.otp_fd_head.map (fun x => { x with mutex := true })) w.otp_fd_head.length = -1 := by
      unfold fd_of; rw [hd]
    obtain ⟨fd, hst⟩ := hclosed hfd
    have hst2 : w'.otp_fd_head = { path := opt.otpd_rp, fd := fd, mutex := true } ::
        w.otp_fd_head.map (fun x => { x with mutex := true }) := by
      rw [hst]; unfold store; simp
    refine ⟨w', fd, _, hget, ?_, hst2, ?_, ?_⟩
    · rw [ha2]; rfl
    · simp [Function.comp_def]
    · rw [hst2]; unfold deref; simp

/-- An instance: of three nodes the last is the first free one to the endpoint. -/
theorem otp_getfd_first_free_or_new_witness :
    ∃ w' fd, otp_getfd hdr opt0 world_three_nodes = (some 0, w') ∧
      deref world_three_nodes.otp_fd_head 0
        = some { path := "/var/run/otpd/socket", fd := 9, mutex := false } ∧
      deref w'.otp_fd_head 0 = some { path := "/var/run/otpd/socket", fd := fd, mutex := true } ∧
      ((9 : Int) ≠ -1 → fd = 9) ∧
      w'.otp_fd_head.map (fun x => x.path)
        = world_three_nodes.otp_fd_head.map (fun x => x.path) :=
  (otp_getfd_first_free_or_new hdr opt0 world_three_nodes (by decide) (by decide)).1
    [{ path := "/var/run/otpd2/socket", fd := 7, mutex := false },
     { path := "/var/run/otpd/socket", fd := 8, mutex := true }]
    { path := "/var/run/otpd/socket", fd := 9, mutex := false } [] rfl (by decide) rfl rfl

/-- C10 (fails on the code). The walk takes the mutex of every free node it visits and gives
none back: after `otp_getfd` the free connection to the other endpoint (pointer 0) has its
mutex held, although the connection returned is the new one (pointer 1). -/
theorem otp_getfd_keeps_mutex_of_other_endpoint :
    otp_getfd hdr opt0 world_other_endpoint =
      (some 1,
        { otp_fd_head :=
            [{ path := "/var/run/otpd/socket", fd := 5, mutex := true },
             { path := "/var/run/otpd2/socket", fd := 7, mutex := true }]
          sockets := []
          connects := []
          writes := []
          reads := []
          log := [Event.getfd_call, Event.connect "/var/run/otpd/socket" 5,
            Event.getfd_ret 1] }) ∧
    deref world_other_endpoint.otp_fd_head 0
      = some { path := "/var/run/otpd2/socket", fd := 7, mutex := false } := by
  decide

end OtpPwValid
